import Mathlib

/-!
# Arduino-FOC stepper motor core: a shallow embedding

Sources embedded here:

* `src/common/pid.cpp`      : `PIDController::operator()`
* `src/StepperMotor.cpp`    : `setPhaseVoltage`, `loopFOC`, `move`,
  `velocityOpenloop`, `angleOpenloop`, `init`, `enable`, `disable`, `initFOC`,
  `alignSensor`, `absoluteZeroSearch`

Modelling conventions.

* C `float` values are elements of a linearly ordered field `α` with exact
  arithmetic.  Every definition is computable, so it evaluates at `α = ℚ`;
  statements that need the exact sine and cosine are read at `α = ℝ`.
* `unsigned long` microsecond timestamps are natural numbers taken modulo `2 ^ 32`.
* Values obtained from the outside (the clock `_micros()`, the motor's
  `shaftAngle()` and `shaftVelocity()`) are explicit arguments.
* The driver is the chronological list of the commands it received.
* Delays and the optional monitoring output are left out.
-/

namespace FOC

/-! ## Helpers of `foc_utils` -/

/-- Constants and trigonometric helpers of `foc_utils.h`, whose values are fixed
outside the embedded sources: `_2PI`, `_3PI_2`, the `NOT_SET` sentinel and the
functions `_sin`, `_cos`. -/
structure FocUtils (α : Type) where
  _2PI : α
  _3PI_2 : α
  NOT_SET : α
  _sin : α → α
  _cos : α → α

section Helpers

variable {α : Type} [LinearOrderedField α]

/-- The test `_isset(a)`, that is `a != NOT_SET`. -/
def _isset (u : FocUtils α) (a : α) : Bool :=
  decide (a ≠ u.NOT_SET)

/-- Modelled from the spec: the helper `_sign` of `foc_utils.h`, the sign of the
angular error used to choose the direction: `-1`, `0` or `1`. -/
def _sign (a : α) : α :=
  if a < 0 then -1 else if a > 0 then 1 else 0

/-- Modelled from the spec: the helper `_electricalAngle` of `foc_utils.cpp`,
`electricalAngle(shaftAngle, polePairs) = shaftAngle · polePairs`. -/
def _electricalAngle (shaft_angle : α) (pole_pairs : ℤ) : α :=
  shaft_angle * (pole_pairs : α)

/-- Modelled from the spec: the helper `_normalizeAngle` of `foc_utils.cpp`, which
reduces an angle modulo `2π` into `[0, 2π)`. -/
def _normalizeAngle [FloorRing α] (u : FocUtils α) (angle : α) : α :=
  angle - u._2PI * ((⌊angle / u._2PI⌋ : ℤ) : α)

/-- The sample time shared by `PIDController::operator()`, `velocityOpenloop` and
`angleOpenloop`:
`float Ts = (now - prev) * 1e-6; if(Ts <= 0 || Ts > 0.5) Ts = 1e-3;`
with the subtraction taken on `unsigned long`, that is modulo `2 ^ 32`. -/
def sampleTime (timestamp_now timestamp_prev : ℕ) : α :=
  let Ts : α :=
    (((timestamp_now % 2 ^ 32 + 2 ^ 32 - timestamp_prev % 2 ^ 32) % 2 ^ 32 : ℕ) : α)
      * (1 / 1000000)
  if Ts ≤ 0 ∨ Ts > 1 / 2 then 1 / 1000 else Ts

end Helpers

/-! ## `pid.cpp` -/

/-- The fields of `PIDController`. -/
structure PIDController (α : Type) where
  P : α
  I : α
  D : α
  output_ramp : α
  limit : α
  integral_prev : α
  error_prev : α
  output_prev : α
  timestamp_prev : ℕ

namespace PIDController

variable {α : Type} [LinearOrderedField α]

/-- The local `proportional = P * error`. -/
def proportional (c : PIDController α) (error : α) : α :=
  c.P * error

/-- The local `integral = integral_prev + I*Ts*0.5*(error + error_prev)`. -/
def integral (c : PIDController α) (Ts error : α) : α :=
  c.integral_prev + c.I * Ts * (1 / 2) * (error + c.error_prev)

/-- The local `derivative = D*(error - error_prev)/Ts`. -/
def derivative (c : PIDController α) (Ts error : α) : α :=
  c.D * (error - c.error_prev) / Ts

/-- The local `output` after the ramp (lines 37-44): the sum of the three parts,
replaced by `output_prev ± output_ramp*Ts` when its rate exceeds the ramp. -/
def ramped (c : PIDController α) (Ts error : α) : α :=
  let output := c.proportional error + c.integral Ts error + c.derivative Ts error
  let output_rate := (output - c.output_prev) / Ts
  if output_rate > c.output_ramp then
    c.output_prev + c.output_ramp * Ts
  else if output_rate < -c.output_ramp then
    c.output_prev - c.output_ramp * Ts
  else
    output

/-- The call `PIDController::operator()(error)`, with the value `timestamp_now`
read from `_micros()`: the returned output and the controller afterwards. -/
def operator (c : PIDController α) (timestamp_now : ℕ) (error : α) :
    α × PIDController α :=
  let Ts : α := sampleTime timestamp_now c.timestamp_prev
  let proportional := c.proportional error
  let integral := c.integral Ts error
  let derivative := c.derivative Ts error
  let output := c.ramped Ts error
  if output > c.limit then
    let output := c.limit
    let integral := output - proportional - derivative
    (output, { c with integral_prev := integral, output_prev := output,
                      error_prev := error, timestamp_prev := timestamp_now })
  else if output < c.limit then
    let output := -c.limit
    let integral := output - proportional - derivative
    (output, { c with integral_prev := integral, output_prev := output,
                      error_prev := error, timestamp_prev := timestamp_now })
  else
    (output, { c with integral_prev := integral, output_prev := output,
                      error_prev := error, timestamp_prev := timestamp_now })

end PIDController

/-! ## `StepperMotor.cpp` -/

/-- The enumeration `MotionControlType`. -/
inductive MotionControlType where
  | torque
  | velocity
  | angle
  | velocity_openloop
  | angle_openloop
  deriving DecidableEq

/-- The sensor direction: `CW`, `CCW`, or not determined. -/
inductive Direction where
  | CW
  | CCW
  | UNKNOWN
  deriving DecidableEq

/-- A command received by the driver. -/
inductive DriverCmd (α : Type) where
  | setPwm (Ua Ub : α)
  | enable
  | disable
  deriving DecidableEq

/-- The pair `voltage.q`, `voltage.d`. -/
structure DQVoltage (α : Type) where
  q : α
  d : α
  deriving DecidableEq

/-- The state of a `StepperMotor` together with the log of its driver. -/
structure StepperMotor (α : Type) where
  pole_pairs : ℤ
  target : α
  shaft_angle : α
  shaft_velocity : α
  shaft_velocity_sp : α
  shaft_angle_sp : α
  voltage : DQVoltage α
  electrical_angle : α
  zero_electric_angle : α
  sensor_direction : Direction
  voltage_limit : α
  velocity_limit : α
  voltage_sensor_align : α
  velocity_index_search : α
  enabled : ℕ
  motion_downsample : ℕ
  motion_cnt : ℕ
  controller : MotionControlType
  PID_velocity : PIDController α
  P_angle : PIDController α
  open_loop_timestamp : ℕ
  Ualpha : α
  Ubeta : α
  driver : List (DriverCmd α)

namespace StepperMotor

variable {α : Type} [LinearOrderedField α]

/-- The method `setPhaseVoltage(Uq, Ud, angle_el)`: inverse Park transform, stored
in `Ualpha`, `Ubeta` and sent to the driver with `setPwm`. -/
def setPhaseVoltage (u : FocUtils α) (Uq Ud angle_el : α) (m : StepperMotor α) :
    StepperMotor α :=
  let _ca := u._cos angle_el
  let _sa := u._sin angle_el
  let Ualpha := _ca * Ud - _sa * Uq
  let Ubeta := _sa * Ud + _ca * Uq
  { m with Ualpha := Ualpha, Ubeta := Ubeta,
           driver := m.driver ++ [DriverCmd.setPwm Ualpha Ubeta] }

/-- The method `loopFOC()`, where `shaftAngle` is the value returned by the call
`shaftAngle()`. -/
def loopFOC [FloorRing α] (u : FocUtils α) (shaftAngle : α) (m : StepperMotor α) :
    StepperMotor α :=
  if m.enabled = 0 then m
  else
    let m1 := { m with shaft_angle := shaftAngle }
    let electrical_angle :=
      _normalizeAngle u (_electricalAngle m1.shaft_angle m1.pole_pairs - m1.zero_electric_angle)
    let m2 := { m1 with electrical_angle := electrical_angle }
    setPhaseVoltage u m2.voltage.q m2.voltage.d m2.electrical_angle m2

/-- The method `velocityOpenloop(target_velocity)`, with the value `now_us` read
from `_micros()`. -/
def velocityOpenloop [FloorRing α] (u : FocUtils α) (now_us : ℕ) (target_velocity : α)
    (m : StepperMotor α) : StepperMotor α :=
  let Ts : α := sampleTime now_us m.open_loop_timestamp
  let m1 := { m with shaft_angle := _normalizeAngle u (m.shaft_angle + target_velocity * Ts) }
  let m2 := { m1 with shaft_velocity := target_velocity }
  let m3 := setPhaseVoltage u m2.voltage_limit 0 (_electricalAngle m2.shaft_angle m2.pole_pairs) m2
  { m3 with open_loop_timestamp := now_us }

/-- The method `angleOpenloop(target_angle)`, with the value `now_us` read from
`_micros()`. -/
def angleOpenloop (u : FocUtils α) (now_us : ℕ) (target_angle : α)
    (m : StepperMotor α) : StepperMotor α :=
  let Ts : α := sampleTime now_us m.open_loop_timestamp
  let m1 :=
    if |target_angle - m.shaft_angle| > |m.velocity_limit * Ts| then
      { m with
          shaft_angle :=
            m.shaft_angle + _sign (target_angle - m.shaft_angle) * |m.velocity_limit| * Ts,
          shaft_velocity := m.velocity_limit }
    else
      { m with shaft_angle := target_angle, shaft_velocity := 0 }
  let m2 := setPhaseVoltage u m1.voltage_limit 0 (_electricalAngle m1.shaft_angle m1.pole_pairs) m1
  { m2 with open_loop_timestamp := now_us }

/-- The method `move(new_target)`.  `shaftVelocity` is the value returned by the
call `shaftVelocity()`; `now1` and `now2` are the first and the second value read
from `_micros()` during the call (the angle mode reads the clock twice, once in
each controller).  The counter `motion_cnt` is an `unsigned int`, incremented
modulo `2 ^ 32`. -/
def move [FloorRing α] (u : FocUtils α) (new_target shaftVelocity : α) (now1 now2 : ℕ)
    (m : StepperMotor α) : StepperMotor α :=
  if m.enabled = 0 then m
  else
    let cnt := m.motion_cnt
    let m0 := { m with motion_cnt := (cnt + 1) % 2 ^ 32 }
    if cnt < m0.motion_downsample then m0
    else
      let m1 := if _isset u new_target then { m0 with target := new_target } else m0
      let m2 := { m1 with shaft_velocity := shaftVelocity }
      match m2.controller with
      | MotionControlType.torque =>
        let m3 := { m2 with voltage := { m2.voltage with q := m2.target } }
        { m3 with voltage := { m3.voltage with d := 0 } }
      | MotionControlType.angle =>
        let m3 := { m2 with shaft_angle_sp := m2.target }
        let r := m3.P_angle.operator now1 (m3.shaft_angle_sp - m3.shaft_angle)
        let m4 := { m3 with shaft_velocity_sp := r.1, P_angle := r.2 }
        let r2 := m4.PID_velocity.operator now2 (m4.shaft_velocity_sp - m4.shaft_velocity)
        let m5 := { m4 with voltage := { m4.voltage with q := r2.1 }, PID_velocity := r2.2 }
        { m5 with voltage := { m5.voltage with d := 0 } }
      | MotionControlType.velocity =>
        let m3 := { m2 with shaft_velocity_sp := m2.target }
        let r := m3.PID_velocity.operator now1 (m3.shaft_velocity_sp - m3.shaft_velocity)
        let m4 := { m3 with voltage := { m3.voltage with q := r.1 }, PID_velocity := r.2 }
        { m4 with voltage := { m4.voltage with d := 0 } }
      | MotionControlType.velocity_openloop =>
        let m3 := { m2 with shaft_velocity_sp := m2.target }
        velocityOpenloop u now1 m3.shaft_velocity_sp m3
      | MotionControlType.angle_openloop =>
        let m3 := { m2 with shaft_angle_sp := m2.target }
        angleOpenloop u now1 m3.shaft_angle_sp m3

/-- The method `disable()`. -/
def disable (m : StepperMotor α) : StepperMotor α :=
  let m1 := { m with driver := m.driver ++ [DriverCmd.setPwm 0 0] }
  let m2 := { m1 with driver := m1.driver ++ [DriverCmd.disable] }
  { m2 with enabled := 0 }

/-- The method `enable()`. -/
def enable (m : StepperMotor α) : StepperMotor α :=
  let m1 := { m with driver := m.driver ++ [DriverCmd.enable] }
  let m2 := { m1 with driver := m1.driver ++ [DriverCmd.setPwm 0 0] }
  { m2 with enabled := 1 }

/-- The method `init()`, where `driver_voltage_limit` is the driver's field
`driver->voltage_limit`. -/
def init (driver_voltage_limit : α) (m : StepperMotor α) : StepperMotor α :=
  let m1 :=
    if m.voltage_limit > driver_voltage_limit then
      { m with voltage_limit := driver_voltage_limit }
    else m
  let m2 :=
    if m1.voltage_sensor_align > m1.voltage_limit then
      { m1 with voltage_sensor_align := m1.voltage_limit }
    else m1
  let m3 := { m2 with PID_velocity := { m2.PID_velocity with limit := m2.voltage_limit } }
  let m4 := { m3 with P_angle := { m3.P_angle with limit := m3.velocity_limit } }
  enable m4

/-- The loop `while(sensor->needsSearch() && shaft_angle < _2PI) angleOpenloop(1.5*_2PI);`
of `absoluteZeroSearch`.  `needsSearch k` is the value returned by the `k`-th call
of `sensor->needsSearch()` and `clock k` the value read from `_micros()` in the
`k`-th iteration; `k` counts the iterations done so far.  The result is the motor
at the exit of the loop together with the number of iterations, or `none` when
the loop is still running after `fuel` tests of its condition. -/
def zeroSearchLoop (u : FocUtils α) (needsSearch : ℕ → Bool) (clock : ℕ → ℕ) :
    ℕ → ℕ → StepperMotor α → Option (StepperMotor α × ℕ)
  | 0, _, _ => none
  | fuel + 1, k, m =>
    if needsSearch k && decide (m.shaft_angle < u._2PI) then
      zeroSearchLoop u needsSearch clock fuel (k + 1)
        (angleOpenloop u (clock k) (3 / 2 * u._2PI) m)
    else
      some (m, k)

/-- The method `absoluteZeroSearch()`; `none` when its loop does not end within
`fuel` tests of its condition. -/
def absoluteZeroSearch (u : FocUtils α) (needsSearch : ℕ → Bool) (clock : ℕ → ℕ)
    (fuel : ℕ) (m : StepperMotor α) : Option (StepperMotor α) :=
  let limit := m.velocity_limit
  let m1 := { m with velocity_limit := m.velocity_index_search }
  match zeroSearchLoop u needsSearch clock fuel 0 m1 with
  | none => none
  | some (m2, _) =>
    let m3 := setPhaseVoltage u 0 0 0 m2
    some { m3 with velocity_limit := limit }

/-- The body of the two `for` loops of `alignSensor`: for each `i` of the list, in
order, `setPhaseVoltage(voltage_sensor_align, 0, _3PI_2 + _2PI * i / 500.0)`. -/
def sweep (u : FocUtils α) (steps : List ℕ) (m : StepperMotor α) : StepperMotor α :=
  steps.foldl
    (fun (m : StepperMotor α) (i : ℕ) =>
      setPhaseVoltage u m.voltage_sensor_align 0 (u._3PI_2 + u._2PI * (i : α) / 500) m)
    m

/-- The method `alignSensor()`: the returned flag and the motor afterwards.
`needsSearch 0` is the value of the first call of `sensor->needsSearch()`, the later
ones are read by the zero search; `start_angle`, `mid_angle` and `end_angle` are the
values returned by the three calls of `shaftAngle()`.  The result is `none` when
the zero search does not end within `fuel` tests of its condition. -/
def alignSensor [FloorRing α] (u : FocUtils α) (needsSearch : ℕ → Bool) (clock : ℕ → ℕ)
    (fuel : ℕ) (start_angle mid_angle end_angle : α) (m : StepperMotor α) :
    Option (ℤ × StepperMotor α) :=
  let searched :=
    if needsSearch 0 then absoluteZeroSearch u (fun k => needsSearch (k + 1)) clock fuel m
    else some m
  match searched with
  | none => none
  | some m1 =>
    let m2 := setPhaseVoltage u m1.voltage_sensor_align 0 u._3PI_2 m1
    let m3 := sweep u (List.range 501) m2
    let m4 := sweep u (List.range 501).reverse m3
    let m5 :=
      if mid_angle < start_angle then { m4 with sensor_direction := Direction.CCW }
      else if mid_angle = start_angle then m4
      else m4
    let zero_electric_angle := _normalizeAngle u (_electricalAngle end_angle m5.pole_pairs)
    let m6 := { m5 with zero_electric_angle := zero_electric_angle }
    let m7 := setPhaseVoltage u 0 0 0 m6
    some (0, m7)

/-- The method `initFOC(zero_electric_offset, _sensor_direction)`: the returned
`exit_flag` and the motor afterwards; the other arguments are those of
`alignSensor`. -/
def initFOC [FloorRing α] (u : FocUtils α) (needsSearch : ℕ → Bool) (clock : ℕ → ℕ)
    (fuel : ℕ) (start_angle mid_angle end_angle : α)
    (zero_electric_offset : α) (_sensor_direction : Direction) (m : StepperMotor α) :
    Option (ℤ × StepperMotor α) :=
  let exit_flag : ℤ := 1
  if !_isset u zero_electric_offset then
    let m1 := { m with zero_electric_angle := zero_electric_offset }
    let m2 := { m1 with sensor_direction := _sensor_direction }
    some (exit_flag, m2)
  else
    alignSensor u needsSearch clock fuel start_angle mid_angle end_angle m

/-- Repeated steps of the angle generator: `n` successive calls
`angleOpenloop(target_angle)`, the call number `k` (from `0`) reading the value
`clock k` from `_micros()`. -/
def angleOpenloopRepeat (u : FocUtils α) (clock : ℕ → ℕ) (target_angle : α) :
    ℕ → StepperMotor α → StepperMotor α
  | 0, m => m
  | n + 1, m => angleOpenloop u (clock n) target_angle (angleOpenloopRepeat u clock target_angle n m)

end StepperMotor

/-! ## Concrete inputs -/

section Inputs

/-- A controller whose stored `output_prev = 100` lies above `limit = 10`. -/
def rampAboveLimit : PIDController ℚ :=
  { P := 0, I := 0, D := 0, output_ramp := 1, limit := 10,
    integral_prev := 0, error_prev := 0, output_prev := 100, timestamp_prev := 0 }

/-- A controller with `P = 1`, ramp `1000`, `limit = 1/2` and zero history. -/
def rampIntoLimit : PIDController ℚ :=
  { P := 1, I := 0, D := 0, output_ramp := 1000, limit := 1 / 2,
    integral_prev := 0, error_prev := 0, output_prev := 0, timestamp_prev := 0 }

/-- A controller with `P = 1`, ramp `1000`, `limit = 10` and zero history. -/
def insideLimit : PIDController ℚ :=
  { P := 1, I := 0, D := 0, output_ramp := 1000, limit := 10,
    integral_prev := 0, error_prev := 0, output_prev := 0, timestamp_prev := 0 }

/-- The helpers over `ℚ` with the decimal constants `6.28318530718`,
`4.71238898038`, `-12345` and the constant functions `_sin = 0`, `_cos = 1` (their
values at angle `0`); used where the trigonometric values play no role. -/
def utilsQ : FocUtils ℚ :=
  { _2PI := 628318530718 / 100000000000, _3PI_2 := 471238898038 / 100000000000,
    NOT_SET := -12345, _sin := fun _ => 0, _cos := fun _ => 1 }

/-- An enabled motor in angle mode with `pole_pairs = 7`, shaft angle `0`, no
downsampling, and the library's default tuning: position controller `P = 20`,
ramp `1e10`, limit `velocity_limit = 20`; velocity controller `P = 0.5`, `I = 10`,
`D = 0`, ramp `1000`, limit `voltage_limit = 12`; both with zero history. -/
def defaultMotor : StepperMotor ℚ :=
  { pole_pairs := 7, target := 0, shaft_angle := 0, shaft_velocity := 0,
    shaft_velocity_sp := 0, shaft_angle_sp := 0, voltage := { q := 0, d := 0 },
    electrical_angle := 0, zero_electric_angle := 0, sensor_direction := Direction.CW,
    voltage_limit := 12, velocity_limit := 20, voltage_sensor_align := 6,
    velocity_index_search := 1, enabled := 1, motion_downsample := 0, motion_cnt := 0,
    controller := MotionControlType.angle,
    PID_velocity :=
      { P := 1 / 2, I := 10, D := 0, output_ramp := 1000, limit := 12,
        integral_prev := 0, error_prev := 0, output_prev := 0, timestamp_prev := 0 },
    P_angle :=
      { P := 20, I := 0, D := 0, output_ramp := 10000000000, limit := 20,
        integral_prev := 0, error_prev := 0, output_prev := 0, timestamp_prev := 0 },
    open_loop_timestamp := 0, Ualpha := 0, Ubeta := 0, driver := [] }

/-- The default motor with a negative velocity ceiling `velocity_limit = -1`. -/
def negativeLimitMotor : StepperMotor ℚ :=
  { defaultMotor with velocity_limit := -1 }

/-- The default motor in torque mode. -/
def torqueMotor : StepperMotor ℚ :=
  { defaultMotor with controller := MotionControlType.torque }

/-- The default motor in torque mode with `motion_downsample = 2`. -/
def downsampledMotor : StepperMotor ℚ :=
  { defaultMotor with controller := MotionControlType.torque, motion_downsample := 2 }

/-- Successive calls `move(t)` for the targets `t` of a list, in order, with
measured velocity `0` and clock value `0`. -/
def moveEach (targets : List ℚ) (m : StepperMotor ℚ) : StepperMotor ℚ :=
  targets.foldl (fun m t => m.move utilsQ t 0 0 0) m

/-- The default motor, disabled. -/
def disabledMotor : StepperMotor ℚ :=
  { defaultMotor with enabled := 0 }

/-- The default motor with the sensor direction `CCW` recorded earlier. -/
def ccwMotor : StepperMotor ℚ :=
  { defaultMotor with sensor_direction := Direction.CCW }

/-- The default motor with the search velocity `velocity_index_search = 7`. -/
def searchMotor : StepperMotor ℚ :=
  { defaultMotor with velocity_index_search := 7 }

/-- A clock that advances by half a second between consecutive reads. -/
def halfSecondClock (k : ℕ) : ℕ :=
  500000 * (k + 1)

end Inputs

/-! ## Properties of the sample time -/

section SampleTime

variable {α : Type} [LinearOrderedField α]

theorem sampleTime_pos (now prev : ℕ) : (0 : α) < sampleTime now prev := by
  unfold sampleTime
  simp only []
  split_ifs with h
  · norm_num
  · push_neg at h
    exact h.1

theorem sampleTime_le_half (now prev : ℕ) : (sampleTime now prev : α) ≤ 1 / 2 := by
  unfold sampleTime
  simp only []
  split_ifs with h
  · norm_num
  · push_neg at h
    exact h.2

end SampleTime

/-! ## The digital controller -/

section Controller

variable {α : Type} [LinearOrderedField α]

/-- The returned output is the stored `output_prev`. -/
theorem operator_output_prev (c : PIDController α) (now : ℕ) (e : α) :
    (c.operator now e).2.output_prev = (c.operator now e).1 := by
  unfold PIDController.operator
  simp only []
  split_ifs <;> rfl

/-- C1: for every controller with `limit ≥ 0`, every error and every pair of
previous and current timestamps, the value returned by `operator()` lies in
`[-limit, limit]`. -/
theorem operator_output_within_limit (c : PIDController α) (now : ℕ) (e : α)
    (hlim : 0 ≤ c.limit) :
    -c.limit ≤ (c.operator now e).1 ∧ (c.operator now e).1 ≤ c.limit := by
  unfold PIDController.operator
  simp only []
  split_ifs with h1 h2
  · exact ⟨by linarith, le_refl _⟩
  · exact ⟨le_refl _, by simp only []; linarith⟩
  · push_neg at h1 h2
    have : c.ramped (sampleTime now c.timestamp_prev) e = c.limit := le_antisymm h1 h2
    simp only [this]
    exact ⟨by linarith, le_refl _⟩

/-- After the ramp the output is within `output_ramp * Ts` of `output_prev`. -/
theorem ramped_sub_prev_le (c : PIDController α) (Ts e : α) (hTs : 0 < Ts)
    (hr : 0 ≤ c.output_ramp) :
    |c.ramped Ts e - c.output_prev| ≤ c.output_ramp * Ts := by
  have hrt : 0 ≤ c.output_ramp * Ts := mul_nonneg hr hTs.le
  unfold PIDController.ramped
  simp only []
  split_ifs with h1 h2
  · rw [add_sub_cancel_left, abs_of_nonneg hrt]
  · have : c.output_prev - c.output_ramp * Ts - c.output_prev = -(c.output_ramp * Ts) := by ring
    rw [this, abs_neg, abs_of_nonneg hrt]
  · push_neg at h1 h2
    rw [div_le_iff₀ hTs] at h1
    rw [le_div_iff₀ hTs] at h2
    rw [abs_le]
    constructor <;> linarith

/-- C2 (as amended): with `output_ramp ≥ 0`, the output after the ramp differs from
`output_prev` by at most `output_ramp * Ts`; and the returned output differs from
`output_prev` by at most `output_ramp * Ts` in both clamping cases of the symmetric
limiter: when `output_prev ≤ limit` and the output after the ramp is at least
`limit` (then `limit` is returned), and when `limit ≥ 0`, `-limit ≤ output_prev`
and the output after the ramp is at most `-limit` (then `-limit` is returned). -/
theorem operator_ramp_bound (c : PIDController α) (now : ℕ) (e : α)
    (hr : 0 ≤ c.output_ramp) :
    |c.ramped (sampleTime now c.timestamp_prev) e - c.output_prev|
        ≤ c.output_ramp * sampleTime now c.timestamp_prev ∧
    (c.output_prev ≤ c.limit → c.limit ≤ c.ramped (sampleTime now c.timestamp_prev) e →
      (c.operator now e).1 = c.limit ∧
      |(c.operator now e).1 - c.output_prev|
        ≤ c.output_ramp * sampleTime now c.timestamp_prev) ∧
    (0 ≤ c.limit → -c.limit ≤ c.output_prev →
      c.ramped (sampleTime now c.timestamp_prev) e ≤ -c.limit →
      (c.operator now e).1 = -c.limit ∧
      |(c.operator now e).1 - c.output_prev|
        ≤ c.output_ramp * sampleTime now c.timestamp_prev) := by
  have hb := ramped_sub_prev_le c (sampleTime now c.timestamp_prev) e (sampleTime_pos now _) hr
  refine ⟨hb, fun hprev hu => ?_, fun hlim hprev hu => ?_⟩
  · have hout : (c.operator now e).1 = c.limit := by
      unfold PIDController.operator
      simp only []
      split_ifs with h1 h2
      · rfl
      · exact absurd h2 (not_lt.mpr hu)
      · exact le_antisymm (not_lt.mp h1) hu
    refine ⟨hout, ?_⟩
    rw [hout, abs_of_nonneg (sub_nonneg.mpr hprev)]
    have := (abs_le.mp hb).2
    linarith
  · have hout : (c.operator now e).1 = -c.limit := by
      unfold PIDController.operator
      simp only []
      split_ifs with h1 h2
      · exact absurd h1 (not_lt.mpr (by linarith))
      · rfl
      · have heq : c.ramped (sampleTime now c.timestamp_prev) e = c.limit :=
          le_antisymm (not_lt.mp h1) (not_lt.mp h2)
        show c.ramped (sampleTime now c.timestamp_prev) e = -c.limit
        rw [heq] at hu ⊢
        linarith
    refine ⟨hout, ?_⟩
    rw [hout, abs_of_nonpos (by linarith)]
    have := (abs_le.mp hb).1
    linarith

/-- C4: whenever the magnitude limiter replaces the output (the output after the
ramp differs from `limit`, so one of the two clamping branches runs), the retained
integral is `returned_output - P*error - D*(error - error_prev)/Ts`, the three
parts add up to the returned output, and that output is `limit` or `-limit`. -/
theorem operator_antiwindup (c : PIDController α) (now : ℕ) (e : α)
    (hclamp : c.ramped (sampleTime now c.timestamp_prev) e ≠ c.limit) :
    (c.operator now e).2.integral_prev
        = (c.operator now e).1 - c.P * e
            - c.D * (e - c.error_prev) / sampleTime now c.timestamp_prev ∧
    c.P * e + (c.operator now e).2.integral_prev
        + c.D * (e - c.error_prev) / sampleTime now c.timestamp_prev
        = (c.operator now e).1 ∧
    ((c.operator now e).1 = c.limit ∨ (c.operator now e).1 = -c.limit) := by
  unfold PIDController.operator
  simp only [PIDController.proportional, PIDController.derivative]
  split_ifs with h1 h2
  · exact ⟨rfl, by ring, Or.inl rfl⟩
  · exact ⟨rfl, by ring, Or.inr rfl⟩
  · exact absurd (le_antisymm (not_lt.mp h1) (not_lt.mp h2)) hclamp

/-- C5: the effective step `Ts` is the elapsed time `((now - prev) mod 2^32) * 1e-6`
when that is `> 0` and `≤ 0.5`, and `1e-3` otherwise, so `0 < Ts ≤ 0.5` for every
pair of timestamps.  `operator()` computes its result with that `Ts` taken at
`prev = timestamp_prev`, and `velocityOpenloop` and `angleOpenloop` with that `Ts`
taken at `prev = open_loop_timestamp`; each stores the new timestamp.  The
divisions by `Ts` in the controller are genuine divisions: multiplying the
derivative part, or the output rate, back by `Ts` recovers the dividend. -/
theorem sampleTime_policy [FloorRing α] (u : FocUtils α) (c : PIDController α)
    (m : StepperMotor α) (now prev : ℕ) (e target_velocity target_angle : α) :
    (sampleTime now prev : α)
        = (if (0 : α) < (((now % 2 ^ 32 + 2 ^ 32 - prev % 2 ^ 32) % 2 ^ 32 : ℕ) : α)
                  * (1 / 1000000) ∧
              (((now % 2 ^ 32 + 2 ^ 32 - prev % 2 ^ 32) % 2 ^ 32 : ℕ) : α)
                  * (1 / 1000000) ≤ 1 / 2
           then (((now % 2 ^ 32 + 2 ^ 32 - prev % 2 ^ 32) % 2 ^ 32 : ℕ) : α) * (1 / 1000000)
           else 1 / 1000) ∧
    (0 : α) < sampleTime now prev ∧ (sampleTime now prev : α) ≤ 1 / 2 ∧
    (sampleTime now prev : α) ≠ 0 ∧
    c.derivative (sampleTime now prev) e * sampleTime now prev = c.D * (e - c.error_prev) ∧
    (c.proportional e + c.integral (sampleTime now prev) e + c.derivative (sampleTime now prev) e
        - c.output_prev) / sampleTime now prev * sampleTime now prev
      = c.proportional e + c.integral (sampleTime now prev) e
          + c.derivative (sampleTime now prev) e - c.output_prev ∧
    (c.operator now e).1
        = (if c.ramped (sampleTime now c.timestamp_prev) e > c.limit then c.limit
           else if c.ramped (sampleTime now c.timestamp_prev) e < c.limit then -c.limit
           else c.ramped (sampleTime now c.timestamp_prev) e) ∧
    (c.operator now e).2.integral_prev
        = (if c.ramped (sampleTime now c.timestamp_prev) e > c.limit then
             c.limit - c.P * e - c.D * (e - c.error_prev) / sampleTime now c.timestamp_prev
           else if c.ramped (sampleTime now c.timestamp_prev) e < c.limit then
             -c.limit - c.P * e - c.D * (e - c.error_prev) / sampleTime now c.timestamp_prev
           else
             c.integral_prev
               + c.I * sampleTime now c.timestamp_prev * (1 / 2) * (e + c.error_prev)) ∧
    c.ramped (sampleTime now c.timestamp_prev) e
        = (if (c.P * e
                + (c.integral_prev
                    + c.I * sampleTime now c.timestamp_prev * (1 / 2) * (e + c.error_prev))
                + c.D * (e - c.error_prev) / sampleTime now c.timestamp_prev
                - c.output_prev) / sampleTime now c.timestamp_prev > c.output_ramp then
             c.output_prev + c.output_ramp * sampleTime now c.timestamp_prev
           else if (c.P * e
                + (c.integral_prev
                    + c.I * sampleTime now c.timestamp_prev * (1 / 2) * (e + c.error_prev))
                + c.D * (e - c.error_prev) / sampleTime now c.timestamp_prev
                - c.output_prev) / sampleTime now c.timestamp_prev < -c.output_ramp then
             c.output_prev - c.output_ramp * sampleTime now c.timestamp_prev
           else
             c.P * e
               + (c.integral_prev
                   + c.I * sampleTime now c.timestamp_prev * (1 / 2) * (e + c.error_prev))
               + c.D * (e - c.error_prev) / sampleTime now c.timestamp_prev) ∧
    (c.operator now e).2.timestamp_prev = now ∧
    (m.velocityOpenloop u now target_velocity).shaft_angle
        = _normalizeAngle u
            (m.shaft_angle + target_velocity * sampleTime now m.open_loop_timestamp) ∧
    (m.velocityOpenloop u now target_velocity).open_loop_timestamp = now ∧
    (m.angleOpenloop u now target_angle).shaft_angle
        = (if |target_angle - m.shaft_angle|
                > |m.velocity_limit * sampleTime now m.open_loop_timestamp| then
             m.shaft_angle + _sign (target_angle - m.shaft_angle) * |m.velocity_limit|
               * sampleTime now m.open_loop_timestamp
           else target_angle) ∧
    (m.angleOpenloop u now target_angle).open_loop_timestamp = now := by
  have hpos : (0 : α) < sampleTime now prev := sampleTime_pos now prev
  refine ⟨?_, hpos, sampleTime_le_half now prev, hpos.ne', ?_, ?_, ?_, ?_, ?_, ?_, ?_, ?_,
    ?_, ?_⟩
  · unfold sampleTime
    simp only []
    by_cases h : (((now % 2 ^ 32 + 2 ^ 32 - prev % 2 ^ 32) % 2 ^ 32 : ℕ) : α) * (1 / 1000000) ≤ 0
        ∨ (((now % 2 ^ 32 + 2 ^ 32 - prev % 2 ^ 32) % 2 ^ 32 : ℕ) : α) * (1 / 1000000) > 1 / 2
    · rw [if_pos h, if_neg]
      rintro ⟨h1, h2⟩
      rcases h with h | h
      · exact absurd h1 (not_lt.mpr h)
      · exact absurd h2 (not_le.mpr h)
    · rw [if_neg h, if_pos]
      push_neg at h
      exact h
  · unfold PIDController.derivative
    exact div_mul_cancel₀ _ hpos.ne'
  · exact div_mul_cancel₀ _ hpos.ne'
  · unfold PIDController.operator
    simp only []
    split_ifs <;> rfl
  · unfold PIDController.operator
    simp only [PIDController.proportional, PIDController.derivative, PIDController.integral]
    split_ifs <;> rfl
  · rfl
  · unfold PIDController.operator
    simp only []
    split_ifs <;> rfl
  · rfl
  · rfl
  · unfold StepperMotor.angleOpenloop StepperMotor.setPhaseVoltage
    simp only []
    split_ifs <;> rfl
  · unfold StepperMotor.angleOpenloop StepperMotor.setPhaseVoltage
    simp only []

end Controller

/-! ## Concrete controller runs -/

section ControllerRuns

/-- C2 (counterexample): with `output_ramp = 1 ≥ 0`, `limit = 10 ≥ 0`,
`output_prev = 100` and `Ts = 1 ms`, the call returns `10`, which differs from
`output_prev` by `90 > output_ramp * Ts`. -/
theorem operator_ramp_bound_fails :
    0 ≤ rampAboveLimit.output_ramp ∧ 0 ≤ rampAboveLimit.limit ∧
    (rampAboveLimit.operator 1000 0).1 = 10 ∧
    ¬ |(rampAboveLimit.operator 1000 0).1 - rampAboveLimit.output_prev|
        ≤ rampAboveLimit.output_ramp * sampleTime 1000 rampAboveLimit.timestamp_prev := by
  norm_num [PIDController.operator, PIDController.ramped, PIDController.proportional,
    PIDController.integral, PIDController.derivative, sampleTime, rampAboveLimit]

/-- Witness of `operator_ramp_bound`: error `2` after `1 ms` ramps to `1 ≥ limit`
and `limit = 1/2` is returned; error `-2` ramps to `-1 ≤ -limit` and `-limit` is
returned; both within `output_ramp * Ts = 1` of `output_prev = 0`. -/
theorem operator_ramp_bound_witness :
    0 ≤ rampIntoLimit.output_ramp ∧ rampIntoLimit.output_prev ≤ rampIntoLimit.limit ∧
    rampIntoLimit.limit ≤ rampIntoLimit.ramped (sampleTime 1000 rampIntoLimit.timestamp_prev) 2 ∧
    |(rampIntoLimit.operator 1000 2).1 - rampIntoLimit.output_prev|
        ≤ rampIntoLimit.output_ramp * sampleTime 1000 rampIntoLimit.timestamp_prev ∧
    0 ≤ rampIntoLimit.limit ∧ -rampIntoLimit.limit ≤ rampIntoLimit.output_prev ∧
    rampIntoLimit.ramped (sampleTime 1000 rampIntoLimit.timestamp_prev) (-2)
        ≤ -rampIntoLimit.limit ∧
    (rampIntoLimit.operator 1000 (-2)).1 = -rampIntoLimit.limit ∧
    |(rampIntoLimit.operator 1000 (-2)).1 - rampIntoLimit.output_prev|
        ≤ rampIntoLimit.output_ramp * sampleTime 1000 rampIntoLimit.timestamp_prev :=
  have hr : 0 ≤ rampIntoLimit.output_ramp := by norm_num [rampIntoLimit]
  have hp : rampIntoLimit.output_prev ≤ rampIntoLimit.limit := by norm_num [rampIntoLimit]
  have hu : rampIntoLimit.limit
      ≤ rampIntoLimit.ramped (sampleTime 1000 rampIntoLimit.timestamp_prev) 2 := by
    norm_num [PIDController.ramped, PIDController.proportional, PIDController.integral,
      PIDController.derivative, sampleTime, rampIntoLimit]
  have hl : 0 ≤ rampIntoLimit.limit := by norm_num [rampIntoLimit]
  have hp' : -rampIntoLimit.limit ≤ rampIntoLimit.output_prev := by norm_num [rampIntoLimit]
  have hu' : rampIntoLimit.ramped (sampleTime 1000 rampIntoLimit.timestamp_prev) (-2)
      ≤ -rampIntoLimit.limit := by
    norm_num [PIDController.ramped, PIDController.proportional, PIDController.integral,
      PIDController.derivative, sampleTime, rampIntoLimit]
  ⟨hr, hp, hu, ((operator_ramp_bound rampIntoLimit 1000 2 hr).2.1 hp hu).2, hl, hp', hu',
    ((operator_ramp_bound rampIntoLimit 1000 (-2) hr).2.2 hl hp' hu').1,
    ((operator_ramp_bound rampIntoLimit 1000 (-2) hr).2.2 hl hp' hu').2⟩

/-- Witness of `operator_output_within_limit` on the same controller. -/
theorem operator_output_within_limit_witness :
    0 ≤ rampIntoLimit.limit ∧
    -rampIntoLimit.limit ≤ (rampIntoLimit.operator 1000 2).1 ∧
    (rampIntoLimit.operator 1000 2).1 ≤ rampIntoLimit.limit :=
  have hl : 0 ≤ rampIntoLimit.limit := by norm_num [rampIntoLimit]
  ⟨hl, operator_output_within_limit rampIntoLimit 1000 2 hl⟩

/-- Witness of `operator_antiwindup`: the output after the ramp is `1 ≠ limit`. -/
theorem operator_antiwindup_witness :
    rampIntoLimit.ramped (sampleTime 1000 rampIntoLimit.timestamp_prev) 2 ≠ rampIntoLimit.limit ∧
    (rampIntoLimit.operator 1000 2).2.integral_prev
        = (rampIntoLimit.operator 1000 2).1 - rampIntoLimit.P * 2
            - rampIntoLimit.D * (2 - rampIntoLimit.error_prev)
                / sampleTime 1000 rampIntoLimit.timestamp_prev :=
  have hc : rampIntoLimit.ramped (sampleTime 1000 rampIntoLimit.timestamp_prev) 2
      ≠ rampIntoLimit.limit := by
    norm_num [PIDController.ramped, PIDController.proportional, PIDController.integral,
      PIDController.derivative, sampleTime, rampIntoLimit]
  ⟨hc, (operator_antiwindup rampIntoLimit 1000 2 hc).1⟩

/-- C3 (the code at the failing input): for error `1/2` after `1 ms` the output
after the ramp is `u = 1/2`, inside `[-limit, limit] = [-10, 10]`, and the Tustin
integral is `0`; the call returns `-10` and retains the integral `-21/2`. -/
theorem operator_inside_limit_clamps :
    insideLimit.ramped (sampleTime 1000 insideLimit.timestamp_prev) (1 / 2) = 1 / 2 ∧
    -insideLimit.limit ≤ 1 / 2 ∧ (1 / 2 : ℚ) ≤ insideLimit.limit ∧
    insideLimit.integral (sampleTime 1000 insideLimit.timestamp_prev) (1 / 2) = 0 ∧
    (insideLimit.operator 1000 (1 / 2)).1 = -10 ∧
    (insideLimit.operator 1000 (1 / 2)).2.integral_prev = -21 / 2 := by
  norm_num [PIDController.operator, PIDController.ramped, PIDController.proportional,
    PIDController.integral, PIDController.derivative, sampleTime, insideLimit]

end ControllerRuns

/-! ## The voltage modulator and the FOC step -/

section Modulator

variable {α : Type} [LinearOrderedField α]

/-- The result of `_normalizeAngle` lies in `[0, _2PI)` whenever `_2PI > 0`. -/
theorem normalizeAngle_range [FloorRing α] (u : FocUtils α) (x : α) (h2pi : 0 < u._2PI) :
    0 ≤ _normalizeAngle u x ∧ _normalizeAngle u x < u._2PI := by
  unfold _normalizeAngle
  have h1 : ((⌊x / u._2PI⌋ : ℤ) : α) ≤ x / u._2PI := Int.floor_le _
  have h2 : x / u._2PI < ((⌊x / u._2PI⌋ : ℤ) : α) + 1 := Int.lt_floor_add_one _
  rw [le_div_iff₀ h2pi] at h1
  rw [div_lt_iff₀ h2pi] at h2
  constructor <;> nlinarith

/-- C6: with the exact sine and cosine, `setPhaseVoltage(Uq, Ud, a)` stores and
sends to the driver `Ualpha = cos a * Ud - sin a * Uq` and
`Ubeta = sin a * Ud + cos a * Uq`; `(Uq, Ud, a) = (1, 0, 0)` gives `(0, 1)` and
`(1, 0, π/2)` gives `(-1, 0)`. -/
theorem setPhaseVoltage_inverse_park (c2pi c3pi2 notset : ℝ) (Uq Ud a : ℝ)
    (m : StepperMotor ℝ) :
    (m.setPhaseVoltage ⟨c2pi, c3pi2, notset, Real.sin, Real.cos⟩ Uq Ud a).Ualpha
        = Real.cos a * Ud - Real.sin a * Uq ∧
    (m.setPhaseVoltage ⟨c2pi, c3pi2, notset, Real.sin, Real.cos⟩ Uq Ud a).Ubeta
        = Real.sin a * Ud + Real.cos a * Uq ∧
    (m.setPhaseVoltage ⟨c2pi, c3pi2, notset, Real.sin, Real.cos⟩ Uq Ud a).driver
        = m.driver ++ [DriverCmd.setPwm (Real.cos a * Ud - Real.sin a * Uq)
                                        (Real.sin a * Ud + Real.cos a * Uq)] ∧
    (m.setPhaseVoltage ⟨c2pi, c3pi2, notset, Real.sin, Real.cos⟩ 1 0 0).Ualpha = 0 ∧
    (m.setPhaseVoltage ⟨c2pi, c3pi2, notset, Real.sin, Real.cos⟩ 1 0 0).Ubeta = 1 ∧
    (m.setPhaseVoltage ⟨c2pi, c3pi2, notset, Real.sin, Real.cos⟩ 1 0 0).driver
        = m.driver ++ [DriverCmd.setPwm 0 1] ∧
    (m.setPhaseVoltage ⟨c2pi, c3pi2, notset, Real.sin, Real.cos⟩ 1 0 (Real.pi / 2)).Ualpha = -1 ∧
    (m.setPhaseVoltage ⟨c2pi, c3pi2, notset, Real.sin, Real.cos⟩ 1 0 (Real.pi / 2)).Ubeta = 0 ∧
    (m.setPhaseVoltage ⟨c2pi, c3pi2, notset, Real.sin, Real.cos⟩ 1 0 (Real.pi / 2)).driver
        = m.driver ++ [DriverCmd.setPwm (-1) 0] := by
  simp [StepperMotor.setPhaseVoltage]

/-- C7: for an enabled motor and every sensor reading `s`, `loopFOC` stores
`shaft_angle = s` and `electrical_angle = normalize(s*pole_pairs - zero_electric_angle)`,
which lies in `[0, 2π)` and is congruent to its argument modulo `2π`; it sends the
driver the inverse Park transform of `(voltage.q, voltage.d)` at that angle, and
leaves `voltage` unchanged. -/
theorem loopFOC_enabled [FloorRing α] (u : FocUtils α) (m : StepperMotor α) (s : α)
    (h2pi : 0 < u._2PI) (hen : m.enabled ≠ 0) :
    (m.loopFOC u s).shaft_angle = s ∧
    (m.loopFOC u s).electrical_angle
        = _normalizeAngle u (s * (m.pole_pairs : α) - m.zero_electric_angle) ∧
    0 ≤ (m.loopFOC u s).electrical_angle ∧ (m.loopFOC u s).electrical_angle < u._2PI ∧
    (∃ k : ℤ, (m.loopFOC u s).electrical_angle
        = s * (m.pole_pairs : α) - m.zero_electric_angle - u._2PI * (k : α)) ∧
    (m.loopFOC u s).Ualpha
        = u._cos (m.loopFOC u s).electrical_angle * m.voltage.d
            - u._sin (m.loopFOC u s).electrical_angle * m.voltage.q ∧
    (m.loopFOC u s).Ubeta
        = u._sin (m.loopFOC u s).electrical_angle * m.voltage.d
            + u._cos (m.loopFOC u s).electrical_angle * m.voltage.q ∧
    (m.loopFOC u s).driver
        = m.driver ++ [DriverCmd.setPwm (m.loopFOC u s).Ualpha (m.loopFOC u s).Ubeta] ∧
    (m.loopFOC u s).voltage = m.voltage := by
  have hr := normalizeAngle_range u (s * (m.pole_pairs : α) - m.zero_electric_angle) h2pi
  simp only [StepperMotor.loopFOC, if_neg hen, StepperMotor.setPhaseVoltage, _electricalAngle]
  refine ⟨?_, ?_, hr.1, hr.2, ⟨_, rfl⟩, ?_, ?_, ?_, ?_⟩ <;> trivial

/-- Witness of `loopFOC_enabled`: the default motor with sensor reading `1`. -/
theorem loopFOC_enabled_witness :
    0 < utilsQ._2PI ∧ defaultMotor.enabled ≠ 0 ∧
    (defaultMotor.loopFOC utilsQ 1).shaft_angle = 1 ∧
    0 ≤ (defaultMotor.loopFOC utilsQ 1).electrical_angle ∧
    (defaultMotor.loopFOC utilsQ 1).electrical_angle < utilsQ._2PI :=
  have h2pi : 0 < utilsQ._2PI := by norm_num [utilsQ]
  have hen : defaultMotor.enabled ≠ 0 := by decide
  have h := loopFOC_enabled utilsQ defaultMotor 1 h2pi hen
  ⟨h2pi, hen, h.1, h.2.2.1, h.2.2.2.1⟩

end Modulator

/-! ## The open-loop angle generator -/

section OpenLoop

variable {α : Type} [LinearOrderedField α]

/-- C8: snap case: when `|target - shaft_angle| ≤ velocity_limit * Ts`, after
`angleOpenloop(target)` the tracked shaft angle equals `target` and
`shaft_velocity` equals `0`. -/
theorem angleOpenloop_snap (u : FocUtils α) (m : StepperMotor α) (now_us : ℕ) (target : α)
    (h : |target - m.shaft_angle|
          ≤ m.velocity_limit * sampleTime now_us m.open_loop_timestamp) :
    (m.angleOpenloop u now_us target).shaft_angle = target ∧
    (m.angleOpenloop u now_us target).shaft_velocity = 0 := by
  have hle : ¬ |target - m.shaft_angle|
      > |m.velocity_limit * sampleTime now_us m.open_loop_timestamp| :=
    not_lt.mpr (h.trans (le_abs_self _))
  simp only [StepperMotor.angleOpenloop, if_neg hle, StepperMotor.setPhaseVoltage]
  constructor <;> trivial

/-- Witness of `angleOpenloop_snap`: from angle `0` with `velocity_limit = 20` and
`Ts = 1 ms`, the target `1/100` is within one step `20 * 0.001`. -/
theorem angleOpenloop_snap_witness :
    |(1 / 100 : ℚ) - defaultMotor.shaft_angle|
        ≤ defaultMotor.velocity_limit * sampleTime 1000 defaultMotor.open_loop_timestamp ∧
    (defaultMotor.angleOpenloop utilsQ 1000 (1 / 100)).shaft_angle = 1 / 100 ∧
    (defaultMotor.angleOpenloop utilsQ 1000 (1 / 100)).shaft_velocity = 0 :=
  have h : |(1 / 100 : ℚ) - defaultMotor.shaft_angle|
      ≤ defaultMotor.velocity_limit * sampleTime 1000 defaultMotor.open_loop_timestamp := by
    norm_num [defaultMotor, sampleTime, abs_of_pos]
  ⟨h, angleOpenloop_snap utilsQ defaultMotor 1000 (1 / 100) h⟩

/-- C9 (as amended): advance case: when `|target - a| ≤ |velocity_limit * Ts|` does
not hold, after `angleOpenloop(target)` the tracked shaft angle equals
`a + sign(target - a) * |velocity_limit| * Ts` and `shaft_velocity` equals
`velocity_limit`. -/
theorem angleOpenloop_advance (u : FocUtils α) (m : StepperMotor α) (now_us : ℕ) (target : α)
    (h : ¬ |target - m.shaft_angle|
          ≤ |m.velocity_limit * sampleTime now_us m.open_loop_timestamp|) :
    (m.angleOpenloop u now_us target).shaft_angle
        = m.shaft_angle + _sign (target - m.shaft_angle) * |m.velocity_limit|
            * sampleTime now_us m.open_loop_timestamp ∧
    (m.angleOpenloop u now_us target).shaft_velocity = m.velocity_limit := by
  have hgt : |target - m.shaft_angle|
      > |m.velocity_limit * sampleTime now_us m.open_loop_timestamp| := not_le.mp h
  simp only [StepperMotor.angleOpenloop, if_pos hgt, StepperMotor.setPhaseVoltage]
  constructor <;> trivial

/-- Witness of `angleOpenloop_advance`: from angle `0` with `velocity_limit = 20`
and `Ts = 1 ms`, the target `1` is further than one step. -/
theorem angleOpenloop_advance_witness :
    ¬ |(1 : ℚ) - defaultMotor.shaft_angle|
        ≤ |defaultMotor.velocity_limit * sampleTime 1000 defaultMotor.open_loop_timestamp| ∧
    (defaultMotor.angleOpenloop utilsQ 1000 1).shaft_angle
        = defaultMotor.shaft_angle + _sign (1 - defaultMotor.shaft_angle)
            * |defaultMotor.velocity_limit| * sampleTime 1000 defaultMotor.open_loop_timestamp ∧
    (defaultMotor.angleOpenloop utilsQ 1000 1).shaft_velocity = defaultMotor.velocity_limit :=
  have h : ¬ |(1 : ℚ) - defaultMotor.shaft_angle|
      ≤ |defaultMotor.velocity_limit * sampleTime 1000 defaultMotor.open_loop_timestamp| := by
    norm_num [defaultMotor, sampleTime, abs_of_pos]
  ⟨h, angleOpenloop_advance utilsQ defaultMotor 1000 1 h⟩

/-- C9 (counterexample): with `velocity_limit = -1`, shaft angle `0`, target `1` and
`Ts = 1 ms`, the condition `|target - a| ≤ velocity_limit * Ts` does not hold, yet
the new shaft angle is `1/1000`, not `a + sign(target - a) * velocity_limit * Ts
= -1/1000`. -/
theorem angleOpenloop_advance_fails :
    ¬ |(1 : ℚ) - negativeLimitMotor.shaft_angle|
        ≤ negativeLimitMotor.velocity_limit
            * sampleTime 1000 negativeLimitMotor.open_loop_timestamp ∧
    (negativeLimitMotor.angleOpenloop utilsQ 1000 1).shaft_angle = 1 / 1000 ∧
    negativeLimitMotor.shaft_angle + _sign (1 - negativeLimitMotor.shaft_angle)
        * negativeLimitMotor.velocity_limit
        * sampleTime 1000 negativeLimitMotor.open_loop_timestamp = -1 / 1000 ∧
    (negativeLimitMotor.angleOpenloop utilsQ 1000 1).shaft_angle
      ≠ negativeLimitMotor.shaft_angle + _sign (1 - negativeLimitMotor.shaft_angle)
          * negativeLimitMotor.velocity_limit
          * sampleTime 1000 negativeLimitMotor.open_loop_timestamp := by
  norm_num [StepperMotor.angleOpenloop, StepperMotor.setPhaseVoltage, negativeLimitMotor,
    defaultMotor, sampleTime, _sign, abs_of_pos]

end OpenLoop

/-! ## More on the digital controller -/

section ControllerMore

variable {α : Type} [LinearOrderedField α]

/-- The call `operator()` does not change the field `limit`. -/
theorem operator_limit (c : PIDController α) (now : ℕ) (e : α) :
    (c.operator now e).2.limit = c.limit := by
  unfold PIDController.operator
  simp only []
  split_ifs <;> rfl

/-- The returned output of `operator()` is bounded by `limit` in magnitude. -/
theorem operator_abs_le (c : PIDController α) (now : ℕ) (e : α) (hlim : 0 ≤ c.limit) :
    |(c.operator now e).1| ≤ c.limit := by
  unfold PIDController.operator
  simp only []
  split_ifs with h1 h2
  · exact (abs_of_nonneg hlim).le
  · simp only [abs_neg]
    exact (abs_of_nonneg hlim).le
  · have : c.ramped (sampleTime now c.timestamp_prev) e = c.limit :=
      le_antisymm (not_lt.mp h1) (not_lt.mp h2)
    simp only [this]
    exact (abs_of_nonneg hlim).le

/-- C20: `operator()` returns `-limit` when the output after the ramp is strictly
below `limit` and `limit` otherwise; so it returns exactly `limit` or `-limit`,
never a value strictly between them. -/
theorem operator_returns_limit_or_neg (c : PIDController α) (now : ℕ) (e : α) :
    (c.operator now e).1
        = (if c.ramped (sampleTime now c.timestamp_prev) e < c.limit then -c.limit
           else c.limit) ∧
    ((c.operator now e).1 = c.limit ∨ (c.operator now e).1 = -c.limit) ∧
    ¬ (-c.limit < (c.operator now e).1 ∧ (c.operator now e).1 < c.limit) := by
  have h : (c.operator now e).1
      = (if c.ramped (sampleTime now c.timestamp_prev) e < c.limit then -c.limit
         else c.limit) := by
    unfold PIDController.operator
    simp only []
    split_ifs with h1 h2 h3
    · exact absurd h2 (not_lt.mpr (le_of_lt h1))
    · rfl
    · rfl
    · exact le_antisymm (not_lt.mp h1) (not_lt.mp h3)
  refine ⟨h, ?_, ?_⟩
  · rw [h]
    split_ifs
    · exact Or.inr rfl
    · exact Or.inl rfl
  · rw [h]
    split_ifs
    · exact fun hh => lt_irrefl _ hh.1
    · exact fun hh => lt_irrefl _ hh.2

/-- The method `init` leaves the motor enabled with `PID_velocity.limit = voltage_limit`
and `P_angle.limit = velocity_limit`. -/
theorem init_limits (driver_voltage_limit : α) (m : StepperMotor α) :
    (m.init driver_voltage_limit).enabled = 1 ∧
    (m.init driver_voltage_limit).PID_velocity.limit = (m.init driver_voltage_limit).voltage_limit ∧
    (m.init driver_voltage_limit).P_angle.limit = (m.init driver_voltage_limit).velocity_limit := by
  unfold StepperMotor.init StepperMotor.enable
  simp only []
  refine ⟨?_, ?_, ?_⟩ <;> trivial

end ControllerMore

/-! ## The motion control loop -/

section Motion

variable {α : Type} [LinearOrderedField α] [FloorRing α]

/-- An executed `move` in angle mode: the position controller's output for the
error `target - shaft_angle` becomes `shaft_velocity_sp`, the velocity controller's
output for `shaft_velocity_sp - shaft_velocity` becomes `voltage.q`, and
`voltage.d` is `0`. -/
theorem move_angle_executed (u : FocUtils α) (m : StepperMotor α) (target vel : α)
    (now1 now2 : ℕ) (hen : m.enabled ≠ 0) (hcnt : ¬ m.motion_cnt < m.motion_downsample)
    (hctrl : m.controller = MotionControlType.angle) (hset : target ≠ u.NOT_SET) :
    (m.move u target vel now1 now2).shaft_velocity_sp
        = (m.P_angle.operator now1 (target - m.shaft_angle)).1 ∧
    (m.move u target vel now1 now2).voltage.q
        = (m.PID_velocity.operator now2
            ((m.P_angle.operator now1 (target - m.shaft_angle)).1 - vel)).1 ∧
    (m.move u target vel now1 now2).voltage.d = 0 := by
  simp [StepperMotor.move, hen, hcnt, hctrl, hset, _isset]

/-- C10 (the code at the failing input): the default angle-mode motor, target
`1` rad, shaft angle `0`, measured velocity `0`, zero controller history and the
degenerate step `Ts = 1 ms`.  One executed `move` sets `shaft_velocity_sp = 20`, the
position controller's output for error `1`, and `voltage.d = 0`, and sets
`voltage.q` to the velocity controller's output for error `20`, which is `-12`:
nonzero, but negative although the position error is positive. -/
theorem move_angle_default_negative_q :
    (defaultMotor.move utilsQ 1 0 0 0).shaft_velocity_sp = 20 ∧
    (defaultMotor.P_angle.operator 0 (1 - 0)).1 = 20 ∧
    (defaultMotor.PID_velocity.operator 0 (20 - 0)).1 = -12 ∧
    (defaultMotor.PID_velocity.ramped (sampleTime 0 0) (20 - 0)) = 1 ∧
    (defaultMotor.move utilsQ 1 0 0 0).voltage.q = -12 ∧
    (defaultMotor.move utilsQ 1 0 0 0).voltage.d = 0 := by
  norm_num [StepperMotor.move, _isset, utilsQ, defaultMotor, PIDController.operator,
    PIDController.ramped, PIDController.proportional, PIDController.integral,
    PIDController.derivative, sampleTime]

/-- C11 (as amended): for an enabled motor with `PID_velocity.limit = voltage_limit ≥ 0`
(as `init` leaves it), an executed `move` keeps `voltage_limit` and
`PID_velocity.limit = voltage_limit`; in the modes angle and velocity it ends with
`|voltage.q| ≤ voltage_limit` and `voltage.d = 0`; in the mode torque it ends with
`voltage.q = target` and `voltage.d = 0`. -/
theorem move_voltage_bound (u : FocUtils α) (m : StepperMotor α) (new_target vel : α)
    (now1 now2 : ℕ) (hen : m.enabled ≠ 0) (hcnt : ¬ m.motion_cnt < m.motion_downsample)
    (hlim : m.PID_velocity.limit = m.voltage_limit) (h0 : 0 ≤ m.voltage_limit) :
    (m.move u new_target vel now1 now2).voltage_limit = m.voltage_limit ∧
    (m.move u new_target vel now1 now2).PID_velocity.limit
        = (m.move u new_target vel now1 now2).voltage_limit ∧
    (m.controller = MotionControlType.angle ∨ m.controller = MotionControlType.velocity →
      |(m.move u new_target vel now1 now2).voltage.q| ≤ m.voltage_limit ∧
      (m.move u new_target vel now1 now2).voltage.d = 0) ∧
    (m.controller = MotionControlType.torque →
      (m.move u new_target vel now1 now2).voltage.q
          = (if new_target ≠ u.NOT_SET then new_target else m.target) ∧
      (m.move u new_target vel now1 now2).voltage.d = 0) := by
  have hb : ∀ (now : ℕ) (e : α), |(m.PID_velocity.operator now e).1| ≤ m.voltage_limit := by
    intro now e
    have := operator_abs_le m.PID_velocity now e (hlim ▸ h0)
    rwa [hlim] at this
  have hl : ∀ (now : ℕ) (e : α), (m.PID_velocity.operator now e).2.limit = m.voltage_limit := by
    intro now e
    rw [operator_limit, hlim]
  rcases hc : m.controller with _ | _ | _ | _ | _ <;>
    by_cases hset : new_target = u.NOT_SET <;>
    simp [StepperMotor.move, StepperMotor.velocityOpenloop, StepperMotor.angleOpenloop,
      StepperMotor.setPhaseVoltage, hen, hcnt, hc, hset, _isset, hb, hl, hlim]
  all_goals split_ifs <;> simp [hlim]

/-- Witness of `move_voltage_bound`: the default motor in angle mode. -/
theorem move_voltage_bound_witness :
    defaultMotor.enabled ≠ 0 ∧ ¬ defaultMotor.motion_cnt < defaultMotor.motion_downsample ∧
    defaultMotor.PID_velocity.limit = defaultMotor.voltage_limit ∧
    0 ≤ defaultMotor.voltage_limit ∧
    defaultMotor.controller = MotionControlType.angle ∧
    |(defaultMotor.move utilsQ 1 0 0 0).voltage.q| ≤ defaultMotor.voltage_limit ∧
    (defaultMotor.move utilsQ 1 0 0 0).voltage.d = 0 :=
  have hen : defaultMotor.enabled ≠ 0 := by decide
  have hcnt : ¬ defaultMotor.motion_cnt < defaultMotor.motion_downsample := by decide
  have hlim : defaultMotor.PID_velocity.limit = defaultMotor.voltage_limit := rfl
  have h0 : 0 ≤ defaultMotor.voltage_limit := by norm_num [defaultMotor]
  ⟨hen, hcnt, hlim, h0, rfl,
    (move_voltage_bound utilsQ defaultMotor 1 0 0 0 hen hcnt hlim h0).2.2.1 (Or.inl rfl)⟩

/-- C11 (counterexample): the default motor in torque mode, enabled, with
`PID_velocity.limit = voltage_limit = 12`; the executed `move(100)` ends with
`voltage.q = 100`, above `voltage_limit`. -/
theorem move_voltage_bound_fails :
    torqueMotor.enabled ≠ 0 ∧ ¬ torqueMotor.motion_cnt < torqueMotor.motion_downsample ∧
    torqueMotor.PID_velocity.limit = torqueMotor.voltage_limit ∧
    0 ≤ torqueMotor.voltage_limit ∧
    torqueMotor.controller = MotionControlType.torque ∧
    (torqueMotor.move utilsQ 100 0 0 0).voltage.q = 100 ∧
    ¬ |(torqueMotor.move utilsQ 100 0 0 0).voltage.q| ≤ torqueMotor.voltage_limit := by
  norm_num [StepperMotor.move, _isset, utilsQ, torqueMotor, defaultMotor, abs_of_pos]

/-- C12 (the code at the failing input): an enabled motor in torque mode with
`motion_downsample = 2` and `motion_cnt = 0`, called with the targets `1, 2, 3, 4,
5` in turn.  The calls 1 and 2 are skipped (`voltage.q` stays `0`), and every call
from the third on executes (`voltage.q` becomes `3`, `4`, `5`); the counter is `5`
after five calls. -/
theorem move_downsample_never_wraps :
    (moveEach [1] downsampledMotor).voltage.q = 0 ∧
    (moveEach [1, 2] downsampledMotor).voltage.q = 0 ∧
    (moveEach [1, 2, 3] downsampledMotor).voltage.q = 3 ∧
    (moveEach [1, 2, 3, 4] downsampledMotor).voltage.q = 4 ∧
    (moveEach [1, 2, 3, 4, 5] downsampledMotor).voltage.q = 5 ∧
    (moveEach [1, 2, 3, 4, 5] downsampledMotor).motion_cnt = 5 := by
  norm_num [moveEach, StepperMotor.move, _isset, utilsQ, downsampledMotor, defaultMotor]

/-- C13: for a motor with `enabled = 0`, `move` and `loopFOC` return the motor state
unchanged, the driver log included. -/
theorem disabled_noop (u : FocUtils α) (m : StepperMotor α) (new_target vel s : α)
    (now1 now2 : ℕ) (hdis : m.enabled = 0) :
    m.move u new_target vel now1 now2 = m ∧ m.loopFOC u s = m := by
  simp [StepperMotor.move, StepperMotor.loopFOC, hdis]

/-- Witness of `disabled_noop`: the default motor, disabled. -/
theorem disabled_noop_witness :
    disabledMotor.enabled = 0 ∧
    disabledMotor.move utilsQ 1 0 0 0 = disabledMotor ∧
    disabledMotor.loopFOC utilsQ 1 = disabledMotor :=
  have hdis : disabledMotor.enabled = 0 := rfl
  ⟨hdis, disabled_noop utilsQ disabledMotor 1 0 1 0 0 hdis⟩

end Motion

/-! ## Calibration -/

section Calibration

variable {α : Type} [LinearOrderedField α]

/-- The sample time is at least one microsecond. -/
theorem sampleTime_ge (now prev : ℕ) : (1 / 1000000 : α) ≤ sampleTime now prev := by
  unfold sampleTime
  simp only []
  split_ifs with h
  · norm_num
  · push_neg at h
    have hpos := h.1
    have hn : (0 : α) < (((now % 2 ^ 32 + 2 ^ 32 - prev % 2 ^ 32) % 2 ^ 32 : ℕ) : α) := by
      by_contra hcon
      have hle := not_lt.mp hcon
      have : (((now % 2 ^ 32 + 2 ^ 32 - prev % 2 ^ 32) % 2 ^ 32 : ℕ) : α) * (1 / 1000000) ≤ 0 :=
        mul_nonpos_of_nonpos_of_nonneg hle (by norm_num)
      exact absurd hpos (not_lt.mpr this)
    have h1 : (1 : α) ≤ (((now % 2 ^ 32 + 2 ^ 32 - prev % 2 ^ 32) % 2 ^ 32 : ℕ) : α) := by
      have : 0 < (now % 2 ^ 32 + 2 ^ 32 - prev % 2 ^ 32) % 2 ^ 32 := by exact_mod_cast hn
      exact_mod_cast this
    have := mul_le_mul_of_nonneg_right h1 (show (0 : α) ≤ 1 / 1000000 by norm_num)
    rwa [one_mul] at this

/-- What `angleOpenloop` leaves unchanged. -/
theorem angleOpenloop_frame (u : FocUtils α) (m : StepperMotor α) (now_us : ℕ) (target : α) :
    (m.angleOpenloop u now_us target).pole_pairs = m.pole_pairs ∧
    (m.angleOpenloop u now_us target).sensor_direction = m.sensor_direction ∧
    (m.angleOpenloop u now_us target).zero_electric_angle = m.zero_electric_angle ∧
    (m.angleOpenloop u now_us target).velocity_limit = m.velocity_limit ∧
    (m.angleOpenloop u now_us target).voltage_sensor_align = m.voltage_sensor_align := by
  unfold StepperMotor.angleOpenloop StepperMotor.setPhaseVoltage
  simp only []
  split_ifs <;> exact ⟨rfl, rfl, rfl, rfl, rfl⟩

/-- What the sweep leaves unchanged, and the number of driver commands it adds. -/
theorem sweep_frame (u : FocUtils α) (steps : List ℕ) (m : StepperMotor α) :
    (StepperMotor.sweep u steps m).pole_pairs = m.pole_pairs ∧
    (StepperMotor.sweep u steps m).sensor_direction = m.sensor_direction ∧
    (StepperMotor.sweep u steps m).zero_electric_angle = m.zero_electric_angle ∧
    (StepperMotor.sweep u steps m).velocity_limit = m.velocity_limit ∧
    (StepperMotor.sweep u steps m).driver.length = m.driver.length + steps.length := by
  induction steps generalizing m with
  | nil => simp [StepperMotor.sweep]
  | cons i rest ih =>
    have h := ih (StepperMotor.setPhaseVoltage u m.voltage_sensor_align 0
      (u._3PI_2 + u._2PI * (i : α) / 500) m)
    unfold StepperMotor.sweep at h ⊢
    rw [List.foldl_cons]
    refine ⟨h.1, h.2.1, h.2.2.1, h.2.2.2.1, ?_⟩
    rw [h.2.2.2.2]
    simp [StepperMotor.setPhaseVoltage]
    omega

/-- The zero search loop ends only when the sensor no longer needs the search or
the tracked shaft angle has reached `_2PI`; it keeps the calibration fields and
the velocity limit. -/
theorem zeroSearchLoop_exit (u : FocUtils α) (needsSearch : ℕ → Bool) (clock : ℕ → ℕ)
    (fuel k : ℕ) (m : StepperMotor α) (r : StepperMotor α × ℕ)
    (h : StepperMotor.zeroSearchLoop u needsSearch clock fuel k m = some r) :
    (needsSearch r.2 = false ∨ u._2PI ≤ r.1.shaft_angle) ∧
    r.1.pole_pairs = m.pole_pairs ∧ r.1.sensor_direction = m.sensor_direction ∧
    r.1.zero_electric_angle = m.zero_electric_angle ∧
    r.1.velocity_limit = m.velocity_limit ∧
    r.1.voltage_sensor_align = m.voltage_sensor_align := by
  induction fuel generalizing k m with
  | zero => simp [StepperMotor.zeroSearchLoop] at h
  | succ n ih =>
    unfold StepperMotor.zeroSearchLoop at h
    split_ifs at h with hc
    · have hi := ih _ _ h
      have hf := angleOpenloop_frame u m (clock k) (3 / 2 * u._2PI)
      refine ⟨hi.1, ?_, ?_, ?_, ?_, ?_⟩
      · rw [hi.2.1, hf.1]
      · rw [hi.2.2.1, hf.2.1]
      · rw [hi.2.2.2.1, hf.2.2.1]
      · rw [hi.2.2.2.2.1, hf.2.2.2.1]
      · rw [hi.2.2.2.2.2, hf.2.2.2.2]
    · have hr : r = (m, k) := by
        simpa using h.symm
      subst hr
      refine ⟨?_, rfl, rfl, rfl, rfl, rfl⟩
      simp only [Bool.and_eq_true, decide_eq_true_eq, not_and, not_lt] at hc
      by_cases hn : needsSearch k = true
      · exact Or.inr (hc hn)
      · exact Or.inl (by simpa using hn)

/-- With a nonzero velocity limit the zero search loop ends: fuel `n + 1` is
enough when `n` steps of one microsecond at that velocity cover the way to `_2PI`. -/
theorem zeroSearchLoop_terminates (u : FocUtils α) (needsSearch : ℕ → Bool) (clock : ℕ → ℕ)
    (h2pi : 0 < u._2PI) (n k : ℕ) (m : StepperMotor α)
    (hn : u._2PI - m.shaft_angle ≤ (n : α) * (|m.velocity_limit| * (1 / 1000000))) :
    ∃ r, StepperMotor.zeroSearchLoop u needsSearch clock (n + 1) k m = some r := by
  induction n generalizing k m with
  | zero =>
    have hge : ¬ m.shaft_angle < u._2PI := by
      simp only [Nat.cast_zero, zero_mul] at hn
      exact not_lt.mpr (by linarith)
    exact ⟨(m, k), by simp [StepperMotor.zeroSearchLoop, hge]⟩
  | succ n ih =>
    unfold StepperMotor.zeroSearchLoop
    split_ifs with hc
    · apply ih
      simp only [Bool.and_eq_true, decide_eq_true_eq] at hc
      have hlt := hc.2
      have hf := (angleOpenloop_frame u m (clock k) (3 / 2 * u._2PI)).2.2.2.1
      rw [hf]
      have hstep : (0 : α) ≤ (n : α) * (|m.velocity_limit| * (1 / 1000000)) :=
        mul_nonneg (Nat.cast_nonneg n) (mul_nonneg (abs_nonneg _) (by norm_num))
      have hTs := sampleTime_ge (α := α) (clock k) m.open_loop_timestamp
      unfold StepperMotor.angleOpenloop StepperMotor.setPhaseVoltage
      simp only []
      split_ifs with hadv
      · have hsign : _sign (3 / 2 * u._2PI - m.shaft_angle) = 1 := by
          unfold _sign
          have hp : 0 < 3 / 2 * u._2PI - m.shaft_angle := by linarith
          rw [if_neg (not_lt.mpr hp.le), if_pos hp]
        simp only [hsign, one_mul]
        have hmul : |m.velocity_limit| * (1 / 1000000)
            ≤ |m.velocity_limit| * sampleTime (clock k) m.open_loop_timestamp :=
          mul_le_mul_of_nonneg_left hTs (abs_nonneg _)
        push_cast at hn
        linarith
      · simp only []
        linarith
    · exact ⟨(m, k), rfl⟩

/-- What `absoluteZeroSearch` guarantees when it returns: the last drive command is
`setPhaseVoltage(0, 0, 0)`, the velocity limit is restored and the calibration
fields are kept. -/
theorem absoluteZeroSearch_result (u : FocUtils α) (needsSearch : ℕ → Bool) (clock : ℕ → ℕ)
    (fuel : ℕ) (m m' : StepperMotor α)
    (h : m.absoluteZeroSearch u needsSearch clock fuel = some m') :
    m'.driver.getLast? = some (DriverCmd.setPwm 0 0) ∧ m'.Ualpha = 0 ∧ m'.Ubeta = 0 ∧
    m'.velocity_limit = m.velocity_limit ∧ m'.pole_pairs = m.pole_pairs ∧
    m'.sensor_direction = m.sensor_direction ∧
    m'.zero_electric_angle = m.zero_electric_angle := by
  unfold StepperMotor.absoluteZeroSearch at h
  simp only [] at h
  cases hl : StepperMotor.zeroSearchLoop u needsSearch clock fuel 0
      { m with velocity_limit := m.velocity_index_search } with
  | none => simp [hl] at h
  | some r =>
    obtain ⟨m2, k⟩ := r
    have hx := zeroSearchLoop_exit u needsSearch clock fuel 0 _ (m2, k) hl
    simp only [hl, Option.some.injEq] at h
    subst h
    refine ⟨?_, ?_, ?_, rfl, hx.2.1, hx.2.2.1, hx.2.2.2.1⟩ <;>
      simp [StepperMotor.setPhaseVoltage]

/-- With `_2PI > 0` and a nonzero search velocity `absoluteZeroSearch` returns. -/
theorem absoluteZeroSearch_returns [FloorRing α] (u : FocUtils α) (needsSearch : ℕ → Bool)
    (clock : ℕ → ℕ) (m : StepperMotor α) (h2pi : 0 < u._2PI)
    (hv : m.velocity_index_search ≠ 0) :
    ∃ fuel m', m.absoluteZeroSearch u needsSearch clock fuel = some m' := by
  have hd : (0 : α) < |m.velocity_index_search| * (1 / 1000000) :=
    mul_pos (abs_pos.mpr hv) (by norm_num)
  obtain ⟨n, hn⟩ :=
    exists_nat_ge ((u._2PI - m.shaft_angle) / (|m.velocity_index_search| * (1 / 1000000)))
  rw [div_le_iff₀ hd] at hn
  obtain ⟨r, hr⟩ := zeroSearchLoop_terminates u needsSearch clock h2pi n 0
    { m with velocity_limit := m.velocity_index_search } hn
  refine ⟨n + 1, ?_⟩
  unfold StepperMotor.absoluteZeroSearch
  simp only [hr]
  exact ⟨_, rfl⟩

/-- The direction decision of `alignSensor` changes only `sensor_direction`, to
`CCW`, and only when the midpoint angle is below the start angle. -/
theorem direction_decision (start_angle mid_angle : α) (m4 : StepperMotor α) :
    (if mid_angle < start_angle then { m4 with sensor_direction := Direction.CCW }
      else if mid_angle = start_angle then m4 else m4).pole_pairs = m4.pole_pairs ∧
    (if mid_angle < start_angle then { m4 with sensor_direction := Direction.CCW }
      else if mid_angle = start_angle then m4 else m4).driver = m4.driver ∧
    (if mid_angle < start_angle then { m4 with sensor_direction := Direction.CCW }
      else if mid_angle = start_angle then m4 else m4).sensor_direction
        = (if mid_angle < start_angle then Direction.CCW else m4.sensor_direction) := by
  split_ifs <;> exact ⟨rfl, rfl, rfl⟩

/-- The part of `alignSensor` after the zero search, run on the motor `m1`. -/
theorem alignSensor_finish [FloorRing α] (u : FocUtils α) (start_angle mid_angle end_angle : α)
    (m1 : StepperMotor α) (r : ℤ × StepperMotor α)
    (hr : ((0 : ℤ), StepperMotor.setPhaseVoltage u 0 0 0
        { (if mid_angle < start_angle then
            { StepperMotor.sweep u (List.range 501).reverse
                (StepperMotor.sweep u (List.range 501)
                  (StepperMotor.setPhaseVoltage u m1.voltage_sensor_align 0 u._3PI_2 m1)) with
              sensor_direction := Direction.CCW }
          else if mid_angle = start_angle then
            StepperMotor.sweep u (List.range 501).reverse
              (StepperMotor.sweep u (List.range 501)
                (StepperMotor.setPhaseVoltage u m1.voltage_sensor_align 0 u._3PI_2 m1))
          else
            StepperMotor.sweep u (List.range 501).reverse
              (StepperMotor.sweep u (List.range 501)
                (StepperMotor.setPhaseVoltage u m1.voltage_sensor_align 0 u._3PI_2 m1))) with
          zero_electric_angle := _normalizeAngle u (_electricalAngle end_angle
            (if mid_angle < start_angle then
              { StepperMotor.sweep u (List.range 501).reverse
                  (StepperMotor.sweep u (List.range 501)
                    (StepperMotor.setPhaseVoltage u m1.voltage_sensor_align 0 u._3PI_2 m1)) with
                sensor_direction := Direction.CCW }
            else if mid_angle = start_angle then
              StepperMotor.sweep u (List.range 501).reverse
                (StepperMotor.sweep u (List.range 501)
                  (StepperMotor.setPhaseVoltage u m1.voltage_sensor_align 0 u._3PI_2 m1))
            else
              StepperMotor.sweep u (List.range 501).reverse
                (StepperMotor.sweep u (List.range 501)
                  (StepperMotor.setPhaseVoltage u m1.voltage_sensor_align 0 u._3PI_2 m1))).pole_pairs) })
      = r) :
    r.1 = 0 ∧
    r.2.sensor_direction
        = (if mid_angle < start_angle then Direction.CCW else m1.sensor_direction) ∧
    r.2.zero_electric_angle = _normalizeAngle u (_electricalAngle end_angle m1.pole_pairs) ∧
    r.2.driver.getLast? = some (DriverCmd.setPwm 0 0) ∧ r.2.Ualpha = 0 ∧ r.2.Ubeta = 0 ∧
    1004 ≤ r.2.driver.length := by
  have h3 := sweep_frame u (List.range 501)
    (StepperMotor.setPhaseVoltage u m1.voltage_sensor_align 0 u._3PI_2 m1)
  have h4 := sweep_frame u (List.range 501).reverse
    (StepperMotor.sweep u (List.range 501)
      (StepperMotor.setPhaseVoltage u m1.voltage_sensor_align 0 u._3PI_2 m1))
  have hpp4 := h4.1.trans h3.1
  have hdir4 := h4.2.1.trans h3.2.1
  have hlen4 := h4.2.2.2.2
  rw [h3.2.2.2.2] at hlen4
  generalize StepperMotor.sweep u (List.range 501).reverse
    (StepperMotor.sweep u (List.range 501)
      (StepperMotor.setPhaseVoltage u m1.voltage_sensor_align 0 u._3PI_2 m1)) = m4
    at hr hpp4 hdir4 hlen4
  have hd := direction_decision start_angle mid_angle m4
  generalize (if mid_angle < start_angle then { m4 with sensor_direction := Direction.CCW }
      else if mid_angle = start_angle then m4 else m4) = m5 at hr hd
  subst hr
  simp only [StepperMotor.setPhaseVoltage, List.length_append, List.length_singleton,
    List.length_reverse, List.length_range] at hlen4 ⊢
  refine ⟨trivial, ?_, ?_, ?_, ?_, ?_, ?_⟩
  · rw [hd.2.2, hdir4]
    rfl
  · rw [hd.1, hpp4]
    rfl
  · simp
  · simp
  · simp
  · rw [hd.2.1, hlen4]
    omega

/-- What `alignSensor` guarantees when it returns: the flag `0`; the direction `CCW`
when the midpoint angle is below the start angle and the earlier direction
otherwise; the zero angle computed from the last shaft angle; a final
`setPhaseVoltage(0, 0, 0)` after at least `1004` drive commands. -/
theorem alignSensor_result [FloorRing α] (u : FocUtils α) (needsSearch : ℕ → Bool)
    (clock : ℕ → ℕ) (fuel : ℕ) (start_angle mid_angle end_angle : α) (m : StepperMotor α)
    (r : ℤ × StepperMotor α)
    (h : m.alignSensor u needsSearch clock fuel start_angle mid_angle end_angle = some r) :
    r.1 = 0 ∧
    r.2.sensor_direction
        = (if mid_angle < start_angle then Direction.CCW else m.sensor_direction) ∧
    r.2.zero_electric_angle = _normalizeAngle u (_electricalAngle end_angle m.pole_pairs) ∧
    r.2.driver.getLast? = some (DriverCmd.setPwm 0 0) ∧ r.2.Ualpha = 0 ∧ r.2.Ubeta = 0 ∧
    1004 ≤ r.2.driver.length := by
  unfold StepperMotor.alignSensor at h
  simp only [] at h
  by_cases hs : needsSearch 0 = true
  · rw [if_pos hs] at h
    cases hz : StepperMotor.absoluteZeroSearch u (fun k => needsSearch (k + 1)) clock fuel m with
    | none => simp [hz] at h
    | some m1 =>
      have hz1 := absoluteZeroSearch_result u _ clock fuel m m1 hz
      simp only [hz, Option.some.injEq] at h
      have hf := alignSensor_finish u start_angle mid_angle end_angle m1 r h
      rw [hz1.2.2.2.2.1, hz1.2.2.2.2.2.1] at hf
      exact hf
  · rw [if_neg hs] at h
    simp only [Option.some.injEq] at h
    exact alignSensor_finish u start_angle mid_angle end_angle m r h

/-- The method `alignSensor` returns when the sensor needs no zero search, or when
`_2PI > 0` and the search velocity is nonzero. -/
theorem alignSensor_returns [FloorRing α] (u : FocUtils α) (needsSearch : ℕ → Bool)
    (clock : ℕ → ℕ) (start_angle mid_angle end_angle : α) (m : StepperMotor α)
    (hterm : needsSearch 0 = false ∨ (0 < u._2PI ∧ m.velocity_index_search ≠ 0)) :
    ∃ fuel r, m.alignSensor u needsSearch clock fuel start_angle mid_angle end_angle = some r := by
  by_cases hs : needsSearch 0 = true
  · rcases hterm with hf | ⟨h2pi, hv⟩
    · rw [hf] at hs
      exact absurd hs (by decide)
    · obtain ⟨fuel, m1, hz⟩ :=
        absoluteZeroSearch_returns u (fun k => needsSearch (k + 1)) clock m h2pi hv
      refine ⟨fuel, ?_⟩
      unfold StepperMotor.alignSensor
      simp only [hs, if_true, hz]
      exact ⟨_, rfl⟩
  · refine ⟨0, ?_⟩
    unfold StepperMotor.alignSensor
    simp only [hs, if_false]
    exact ⟨_, rfl⟩

/-- When the sensor needs no zero search, `alignSensor` returns for every fuel, with
the flag `0` and the motor described by `alignSensor_result`. -/
theorem alignSensor_no_search [FloorRing α] (u : FocUtils α) (needsSearch : ℕ → Bool)
    (clock : ℕ → ℕ) (fuel : ℕ) (start_angle mid_angle end_angle : α) (m : StepperMotor α)
    (hns : needsSearch 0 = false) :
    ∃ m', m.alignSensor u needsSearch clock fuel start_angle mid_angle end_angle = some (0, m') ∧
      m'.sensor_direction
          = (if mid_angle < start_angle then Direction.CCW else m.sensor_direction) ∧
      m'.zero_electric_angle = _normalizeAngle u (_electricalAngle end_angle m.pole_pairs) ∧
      m'.driver.getLast? = some (DriverCmd.setPwm 0 0) ∧ 1004 ≤ m'.driver.length := by
  have hex : ∃ r, m.alignSensor u needsSearch clock fuel start_angle mid_angle end_angle
      = some r := by
    unfold StepperMotor.alignSensor
    simp only [hns]
    exact ⟨_, rfl⟩
  obtain ⟨r, hr⟩ := hex
  have hres := alignSensor_result u needsSearch clock fuel start_angle mid_angle end_angle m r hr
  obtain ⟨flag, m'⟩ := r
  simp only [] at hres
  refine ⟨m', ?_, hres.2.1, hres.2.2.1, hres.2.2.2.1, hres.2.2.2.2.2.2⟩
  rw [hr, hres.1]

/-- With the constants of `utilsQ`, the electrical angle `7` normalizes to
`7 - 6.28318530718`. -/
theorem normalizeAngle_seven :
    _normalizeAngle utilsQ (_electricalAngle (1 : ℚ) 7) = 71681469282 / 100000000000 := by
  have hf : ⌊(7 : ℚ) / (628318530718 / 100000000000)⌋ = 1 := by
    rw [Int.floor_eq_iff]
    constructor <;> norm_num
  simp only [_normalizeAngle, _electricalAngle, utilsQ, Int.cast_ofNat, one_mul, hf]
  norm_num

/-- C14 (the code at the failing input): `initFOC(0.5, CCW)` on the default motor,
with a sensor that needs no search and reads the shaft angles `0`, `1`, `1`.  The
offset is supplied, yet the alignment runs: at least `1004` drive commands are
issued, the flag returned is `0`, `zero_electric_angle` becomes `7 - 6.28318530718`
instead of `0.5` and `sensor_direction` stays `CW` instead of `CCW`.  With the
`NOT_SET` sentinel as offset the alignment is skipped, the flag is `1` and the
sentinel `-12345` is stored as zero angle. -/
theorem initFOC_offset_runs_alignment :
    (∃ m', defaultMotor.initFOC utilsQ (fun _ => false) (fun _ => 0) 0 0 1 1 (1 / 2)
        Direction.CCW = some (0, m') ∧
      m'.zero_electric_angle = 71681469282 / 100000000000 ∧
      m'.sensor_direction = Direction.CW ∧ 1004 ≤ m'.driver.length) ∧
    defaultMotor.initFOC utilsQ (fun _ => false) (fun _ => 0) 0 0 1 1 (-12345) Direction.CCW
      = some (1, { defaultMotor with zero_electric_angle := -12345,
                                     sensor_direction := Direction.CCW }) := by
  constructor
  · have hi : defaultMotor.initFOC utilsQ (fun _ => false) (fun _ => 0) 0 0 1 1 (1 / 2)
        Direction.CCW
        = defaultMotor.alignSensor utilsQ (fun _ => false) (fun _ => 0) 0 0 1 1 := by
      norm_num [StepperMotor.initFOC, _isset, utilsQ]
    obtain ⟨fuel, r, hr⟩ := alignSensor_returns utilsQ (fun _ => false) (fun _ => 0) 0 1 1
      defaultMotor (Or.inl rfl)
    have hr0 : defaultMotor.alignSensor utilsQ (fun _ => false) (fun _ => 0) 0 0 1 1 = some r := by
      unfold StepperMotor.alignSensor at hr ⊢
      simpa using hr
    have hres := alignSensor_result utilsQ _ _ 0 0 1 1 defaultMotor r hr0
    obtain ⟨flag, m'⟩ := r
    simp only [] at hres
    refine ⟨m', ?_, ?_, ?_, hres.2.2.2.2.2.2⟩
    · rw [hi, hr0, hres.1]
    · rw [hres.2.2.1]
      exact normalizeAngle_seven
    · rw [hres.2.1]
      norm_num [defaultMotor]
  · norm_num [StepperMotor.initFOC, _isset, utilsQ]

/-- C15 (the code at the failing input): `alignSensor` on a motor whose
`sensor_direction` is `CCW`, with a sensor that needs no search and reads the shaft
angle `0` before the sweep and `1 > 0` at its midpoint: the method returns and
`sensor_direction` is still `CCW`, not `CW`. -/
theorem alignSensor_forward_keeps_ccw :
    (0 : ℚ) < 1 ∧ ccwMotor.sensor_direction = Direction.CCW ∧
    ∃ m', ccwMotor.alignSensor utilsQ (fun _ => false) (fun _ => 0) 0 0 1 1 = some (0, m') ∧
      m'.sensor_direction = Direction.CCW := by
  refine ⟨by norm_num, rfl, ?_⟩
  obtain ⟨m', hm, hdir, -⟩ := alignSensor_no_search utilsQ (fun _ => false) (fun _ => 0) 0
    (0 : ℚ) 1 1 ccwMotor rfl
  refine ⟨m', hm, ?_⟩
  rw [hdir]
  norm_num [ccwMotor]

/-- C16 (as amended): when the midpoint shaft angle equals the starting shaft angle,
`alignSensor` returns (provided the sensor needs no zero search, or `_2PI > 0` and
the search velocity is nonzero), and after it `sensor_direction` equals its value
before the call while `zero_electric_angle` is
`normalize(electricalAngle(shaft angle read after the sweep, pole_pairs))`. -/
theorem alignSensor_no_movement [FloorRing α] (u : FocUtils α) (needsSearch : ℕ → Bool)
    (clock : ℕ → ℕ) (start_angle mid_angle end_angle : α) (m : StepperMotor α)
    (hsame : mid_angle = start_angle)
    (hterm : needsSearch 0 = false ∨ (0 < u._2PI ∧ m.velocity_index_search ≠ 0)) :
    (∃ fuel r, m.alignSensor u needsSearch clock fuel start_angle mid_angle end_angle = some r) ∧
    ∀ fuel r, m.alignSensor u needsSearch clock fuel start_angle mid_angle end_angle = some r →
      r.2.sensor_direction = m.sensor_direction ∧
      r.2.zero_electric_angle = _normalizeAngle u (_electricalAngle end_angle m.pole_pairs) := by
  refine ⟨alignSensor_returns u needsSearch clock start_angle mid_angle end_angle m hterm, ?_⟩
  intro fuel r hr
  have hres := alignSensor_result u needsSearch clock fuel start_angle mid_angle end_angle m r hr
  refine ⟨?_, hres.2.2.1⟩
  rw [hres.2.1, if_neg]
  rw [hsame]
  exact lt_irrefl _

/-- Witness of `alignSensor_no_movement`: the default motor, a sensor that needs no
search and reads the shaft angle `1` three times. -/
theorem alignSensor_no_movement_witness :
    (1 : ℚ) = 1 ∧ (fun _ : ℕ => false) 0 = false ∧
    ∃ fuel r, defaultMotor.alignSensor utilsQ (fun _ => false) (fun _ => 0) fuel 1 1 1 = some r ∧
      r.2.sensor_direction = defaultMotor.sensor_direction ∧
      r.2.zero_electric_angle
        = _normalizeAngle utilsQ (_electricalAngle 1 defaultMotor.pole_pairs) :=
  have h := alignSensor_no_movement utilsQ (fun _ => false) (fun _ => 0) (1 : ℚ) 1 1
    defaultMotor rfl (Or.inl rfl)
  ⟨rfl, rfl, h.1.elim fun fuel hr => hr.elim fun r hr' => ⟨fuel, r, hr', h.2 fuel r hr'⟩⟩

/-- C16 (counterexample): the default motor with `zero_electric_angle = 0`, a sensor
that needs no search and reads the shaft angle `1` before the sweep, at its midpoint
and after it.  After `alignSensor`, `zero_electric_angle` is `7 - 6.28318530718`,
not its value `0` before the call. -/
theorem alignSensor_no_movement_changes_zero :
    defaultMotor.zero_electric_angle = 0 ∧
    ∃ m', defaultMotor.alignSensor utilsQ (fun _ => false) (fun _ => 0) 0 1 1 1 = some (0, m') ∧
      m'.zero_electric_angle = 71681469282 / 100000000000 ∧
      m'.zero_electric_angle ≠ defaultMotor.zero_electric_angle := by
  refine ⟨rfl, ?_⟩
  obtain ⟨m', hm, -, hzero, -⟩ := alignSensor_no_search utilsQ (fun _ => false) (fun _ => 0) 0
    (1 : ℚ) 1 1 defaultMotor rfl
  have hz : m'.zero_electric_angle = 71681469282 / 100000000000 := by
    rw [hzero]
    exact normalizeAngle_seven
  refine ⟨m', hm, hz, ?_⟩
  rw [hz]
  norm_num [defaultMotor]

/-- C17 (the code at the failing input): `initFOC(0.5, CW)` on the default motor with
a sensor that needs no search.  The alignment runs; with the shaft angle `0` before
the sweep and `1` at its midpoint (movement registered) the returned flag is `0`,
the same flag as with the shaft angle `1` at both reads (no movement); the flag `1`
is returned only when the alignment is skipped. -/
theorem initFOC_flag_zero_after_alignment :
    (0 : ℚ) ≠ 1 ∧
    (∃ m', defaultMotor.initFOC utilsQ (fun _ => false) (fun _ => 0) 0 0 1 1 (1 / 2)
        Direction.CW = some (0, m') ∧ 1004 ≤ m'.driver.length) ∧
    (∃ m', defaultMotor.initFOC utilsQ (fun _ => false) (fun _ => 0) 0 1 1 1 (1 / 2)
        Direction.CW = some (0, m') ∧ 1004 ≤ m'.driver.length) ∧
    (defaultMotor.initFOC utilsQ (fun _ => false) (fun _ => 0) 0 0 1 1 (-12345)
        Direction.CW).map Prod.fst = some 1 := by
  refine ⟨by norm_num, ?_, ?_, ?_⟩
  · have hi : defaultMotor.initFOC utilsQ (fun _ => false) (fun _ => 0) 0 0 1 1 (1 / 2)
        Direction.CW
        = defaultMotor.alignSensor utilsQ (fun _ => false) (fun _ => 0) 0 0 1 1 := by
      norm_num [StepperMotor.initFOC, _isset, utilsQ]
    obtain ⟨m', hm, -, -, -, hlen⟩ := alignSensor_no_search utilsQ (fun _ => false)
      (fun _ => 0) 0 (0 : ℚ) 1 1 defaultMotor rfl
    exact ⟨m', hi.trans hm, hlen⟩
  · have hi : defaultMotor.initFOC utilsQ (fun _ => false) (fun _ => 0) 0 1 1 1 (1 / 2)
        Direction.CW
        = defaultMotor.alignSensor utilsQ (fun _ => false) (fun _ => 0) 0 1 1 1 := by
      norm_num [StepperMotor.initFOC, _isset, utilsQ]
    obtain ⟨m', hm, -, -, -, hlen⟩ := alignSensor_no_search utilsQ (fun _ => false)
      (fun _ => 0) 0 (1 : ℚ) 1 1 defaultMotor rfl
    exact ⟨m', hi.trans hm, hlen⟩
  · norm_num [StepperMotor.initFOC, _isset, utilsQ]

/-- C18 (the code at the failing input): `angleOpenloop(1)` on the default motor
after half a second, for any functions `_sin` and `_cos`.  The shaft angle snaps to
`1`, and the electrical angle handed to `setPhaseVoltage` is
`_electricalAngle(1, 7) = 7`, which is not below `_2PI = 6.28318530718`: the driver
receives the transform evaluated at the angle `7`. -/
theorem angleOpenloop_hands_angle_above_2pi (sin cos : ℚ → ℚ) :
    (defaultMotor.angleOpenloop { utilsQ with _sin := sin, _cos := cos } 500000 1).shaft_angle
        = 1 ∧
    _electricalAngle (1 : ℚ) defaultMotor.pole_pairs = 7 ∧
    ¬ (7 : ℚ) < utilsQ._2PI ∧
    (defaultMotor.angleOpenloop { utilsQ with _sin := sin, _cos := cos } 500000 1).driver
        = [DriverCmd.setPwm (cos 7 * 0 - sin 7 * 12) (sin 7 * 0 + cos 7 * 12)] := by
  norm_num [StepperMotor.angleOpenloop, StepperMotor.setPhaseVoltage, _electricalAngle,
    sampleTime, utilsQ, defaultMotor, abs_of_pos]

/-- C19 (as amended): with `_2PI > 0` and a nonzero search velocity,
`absoluteZeroSearch` returns; its loop ends only when the sensor no longer needs
the search or the tracked shaft angle has reached one full turn `_2PI`; and
whenever it returns, the last drive command is `setPhaseVoltage(0, 0, 0)` and
`velocity_limit` equals its value before the call. -/
theorem absoluteZeroSearch_full_turn [FloorRing α] (u : FocUtils α) (needsSearch : ℕ → Bool)
    (clock : ℕ → ℕ) (m : StepperMotor α) (h2pi : 0 < u._2PI)
    (hv : m.velocity_index_search ≠ 0) :
    (∃ fuel m', m.absoluteZeroSearch u needsSearch clock fuel = some m') ∧
    (∀ fuel r, StepperMotor.zeroSearchLoop u needsSearch clock fuel 0
        { m with velocity_limit := m.velocity_index_search } = some r →
      needsSearch r.2 = false ∨ u._2PI ≤ r.1.shaft_angle) ∧
    (∀ fuel m', m.absoluteZeroSearch u needsSearch clock fuel = some m' →
      m'.driver.getLast? = some (DriverCmd.setPwm 0 0) ∧ m'.Ualpha = 0 ∧ m'.Ubeta = 0 ∧
      m'.velocity_limit = m.velocity_limit) := by
  refine ⟨absoluteZeroSearch_returns u needsSearch clock m h2pi hv, ?_, ?_⟩
  · intro fuel r hr
    exact (zeroSearchLoop_exit u needsSearch clock fuel 0 _ r hr).1
  · intro fuel m' hm
    have h := absoluteZeroSearch_result u needsSearch clock fuel m m' hm
    exact ⟨h.1, h.2.1, h.2.2.1, h.2.2.2.1⟩

/-- Witness of `absoluteZeroSearch_full_turn`: the motor with search velocity `7`, a
sensor that always needs the search and a clock advancing by half a second. -/
theorem absoluteZeroSearch_full_turn_witness :
    0 < utilsQ._2PI ∧ searchMotor.velocity_index_search ≠ 0 ∧
    ∃ fuel m', searchMotor.absoluteZeroSearch utilsQ (fun _ => true) halfSecondClock fuel
        = some m' ∧
      m'.driver.getLast? = some (DriverCmd.setPwm 0 0) ∧
      m'.velocity_limit = searchMotor.velocity_limit :=
  have h2pi : 0 < utilsQ._2PI := by norm_num [utilsQ]
  have hv : searchMotor.velocity_index_search ≠ 0 := by norm_num [searchMotor, defaultMotor]
  have h := absoluteZeroSearch_full_turn utilsQ (fun _ => true) halfSecondClock searchMotor h2pi hv
  ⟨h2pi, hv, h.1.elim fun fuel hm => hm.elim fun m' hm' =>
    ⟨fuel, m', hm', (h.2.2 fuel m' hm').1, (h.2.2 fuel m' hm').2.2.2⟩⟩

/-- C19 (counterexample): search velocity `7`, tracked shaft angle `0`, a sensor that
always needs the search and a clock advancing by half a second.  The loop does two
steps and ends with the tracked shaft angle `7`, which is below
`1.5 * _2PI = 9.42477796077`, although the sensor still needs the search (its third
reading is `true`); `absoluteZeroSearch` returns with that shaft angle. -/
theorem absoluteZeroSearch_stops_below_one_and_half_turns :
    (StepperMotor.zeroSearchLoop utilsQ (fun _ => true) halfSecondClock 3 0
        { searchMotor with velocity_limit := searchMotor.velocity_index_search }).map
      (fun r => (r.1.shaft_angle, r.2)) = some (7, 2) ∧
    (fun _ : ℕ => true) 2 = true ∧
    (7 : ℚ) < 3 / 2 * utilsQ._2PI ∧
    (searchMotor.absoluteZeroSearch utilsQ (fun _ => true) halfSecondClock 3).map
      (fun m => m.shaft_angle) = some 7 := by
  norm_num [StepperMotor.absoluteZeroSearch, StepperMotor.zeroSearchLoop,
    StepperMotor.angleOpenloop, StepperMotor.setPhaseVoltage, _sign, sampleTime, halfSecondClock,
    utilsQ, searchMotor, defaultMotor, abs_of_pos]

end Calibration

/-! ## Convergence of the open-loop angle generator -/

section Convergence

variable {α : Type} [LinearOrderedField α]

/-- One step of `angleOpenloop`: in the advance case the distance to the target
shrinks by `|velocity_limit| * Ts` and the error keeps its sign; otherwise the
tracked angle becomes the target. -/
theorem angleOpenloop_step (u : FocUtils α) (m : StepperMotor α) (now_us : ℕ) (t : α) :
    (|t - m.shaft_angle| > |m.velocity_limit * sampleTime now_us m.open_loop_timestamp| →
      |t - (m.angleOpenloop u now_us t).shaft_angle|
          = |t - m.shaft_angle| - |m.velocity_limit| * sampleTime now_us m.open_loop_timestamp ∧
      _sign (t - (m.angleOpenloop u now_us t).shaft_angle) = _sign (t - m.shaft_angle) ∧
      _sign (t - m.shaft_angle) ≠ 0) ∧
    (¬ |t - m.shaft_angle| > |m.velocity_limit * sampleTime now_us m.open_loop_timestamp| →
      (m.angleOpenloop u now_us t).shaft_angle = t) := by
  have hTs : (0 : α) < sampleTime now_us m.open_loop_timestamp := sampleTime_pos _ _
  have habs : |m.velocity_limit * sampleTime now_us m.open_loop_timestamp|
      = |m.velocity_limit| * sampleTime now_us m.open_loop_timestamp := by
    rw [abs_mul, abs_of_pos hTs]
  constructor
  · intro hadv
    have hsa : (m.angleOpenloop u now_us t).shaft_angle
        = m.shaft_angle + _sign (t - m.shaft_angle) * |m.velocity_limit|
            * sampleTime now_us m.open_loop_timestamp := by
      simp only [StepperMotor.angleOpenloop, if_pos hadv, StepperMotor.setPhaseVoltage]
    rw [habs] at hadv
    have hstep : 0 ≤ |m.velocity_limit| * sampleTime now_us m.open_loop_timestamp :=
      mul_nonneg (abs_nonneg _) hTs.le
    rcases lt_trichotomy (t - m.shaft_angle) 0 with hneg | hzero | hpos
    · have hs : _sign (t - m.shaft_angle) = -1 := by
        unfold _sign
        rw [if_pos hneg]
      rw [abs_of_neg hneg] at hadv
      have hneg' : t - (m.angleOpenloop u now_us t).shaft_angle < 0 := by
        rw [hsa, hs]
        linarith
      refine ⟨?_, ?_, ?_⟩
      · rw [abs_of_neg hneg', abs_of_neg hneg, hsa, hs]
        ring
      · rw [hs]
        unfold _sign
        rw [if_pos hneg']
      · rw [hs]
        norm_num
    · rw [hzero, abs_zero] at hadv
      exact absurd hadv (not_lt.mpr hstep)
    · have hs : _sign (t - m.shaft_angle) = 1 := by
        unfold _sign
        rw [if_neg (not_lt.mpr hpos.le), if_pos hpos]
      rw [abs_of_pos hpos] at hadv
      have hpos' : 0 < t - (m.angleOpenloop u now_us t).shaft_angle := by
        rw [hsa, hs]
        linarith
      refine ⟨?_, ?_, ?_⟩
      · rw [abs_of_pos hpos', abs_of_pos hpos, hsa, hs]
        ring
      · rw [hs]
        unfold _sign
        rw [if_neg (not_lt.mpr hpos'.le), if_pos hpos']
      · rw [hs]
        norm_num
  · intro hsnap
    simp only [StepperMotor.angleOpenloop, if_neg hsnap, StepperMotor.setPhaseVoltage]

/-- Repeated steps keep `velocity_limit`, and after `n` of them the tracked angle is
the target or its distance to the target has shrunk by `n` steps of one
microsecond at the velocity limit. -/
theorem angleOpenloopRepeat_progress (u : FocUtils α) (clock : ℕ → ℕ) (t : α) (n : ℕ)
    (m : StepperMotor α) :
    (StepperMotor.angleOpenloopRepeat u clock t n m).velocity_limit = m.velocity_limit ∧
    ((StepperMotor.angleOpenloopRepeat u clock t n m).shaft_angle = t ∨
      |t - (StepperMotor.angleOpenloopRepeat u clock t n m).shaft_angle|
        ≤ |t - m.shaft_angle| - (n : α) * (|m.velocity_limit| * (1 / 1000000))) := by
  induction n with
  | zero =>
    refine ⟨rfl, Or.inr ?_⟩
    simp [StepperMotor.angleOpenloopRepeat]
  | succ n ih =>
    obtain ⟨hvl, hprog⟩ := ih
    have hf := (angleOpenloop_frame u (StepperMotor.angleOpenloopRepeat u clock t n m)
      (clock n) t).2.2.2.1
    have hst := angleOpenloop_step u (StepperMotor.angleOpenloopRepeat u clock t n m) (clock n) t
    have hTs := sampleTime_ge (α := α) (clock n)
      (StepperMotor.angleOpenloopRepeat u clock t n m).open_loop_timestamp
    refine ⟨?_, ?_⟩
    · show (StepperMotor.angleOpenloop u (clock n) t
        (StepperMotor.angleOpenloopRepeat u clock t n m)).velocity_limit = m.velocity_limit
      rw [hf, hvl]
    · show (StepperMotor.angleOpenloop u (clock n) t
          (StepperMotor.angleOpenloopRepeat u clock t n m)).shaft_angle = t ∨
        |t - (StepperMotor.angleOpenloop u (clock n) t
          (StepperMotor.angleOpenloopRepeat u clock t n m)).shaft_angle|
          ≤ |t - m.shaft_angle| - ((n + 1 : ℕ) : α) * (|m.velocity_limit| * (1 / 1000000))
      by_cases hadv : |t - (StepperMotor.angleOpenloopRepeat u clock t n m).shaft_angle|
          > |(StepperMotor.angleOpenloopRepeat u clock t n m).velocity_limit
              * sampleTime (clock n)
                  (StepperMotor.angleOpenloopRepeat u clock t n m).open_loop_timestamp|
      · rcases hprog with hat | hle
        · exfalso
          rw [hat, sub_self, abs_zero] at hadv
          exact absurd hadv (not_lt.mpr (abs_nonneg _))
        · right
          rw [(hst.1 hadv).1, hvl]
          have hmul : |m.velocity_limit| * (1 / 1000000)
              ≤ |m.velocity_limit| * sampleTime (clock n)
                  (StepperMotor.angleOpenloopRepeat u clock t n m).open_loop_timestamp :=
            mul_le_mul_of_nonneg_left hTs (abs_nonneg _)
          push_cast
          linarith
      · exact Or.inl (hst.2 hadv)

/-- With a nonzero velocity limit, repeated steps towards a fixed target reach it
exactly after finitely many calls and stay there. -/
theorem angleOpenloopRepeat_reaches [FloorRing α] (u : FocUtils α) (clock : ℕ → ℕ) (t : α)
    (m : StepperMotor α) (hv : m.velocity_limit ≠ 0) :
    ∃ N : ℕ, ∀ n, N ≤ n → (StepperMotor.angleOpenloopRepeat u clock t n m).shaft_angle = t := by
  have hc : (0 : α) < |m.velocity_limit| * (1 / 1000000) :=
    mul_pos (abs_pos.mpr hv) (by norm_num)
  obtain ⟨N, hN⟩ := exists_nat_gt (|t - m.shaft_angle| / (|m.velocity_limit| * (1 / 1000000)))
  rw [div_lt_iff₀ hc] at hN
  refine ⟨N, fun n hn => ?_⟩
  rcases (angleOpenloopRepeat_progress u clock t n m).2 with h | h
  · exact h
  · exfalso
    have hNn : (N : α) ≤ (n : α) := by exact_mod_cast hn
    have h1 : (N : α) * (|m.velocity_limit| * (1 / 1000000))
        ≤ (n : α) * (|m.velocity_limit| * (1 / 1000000)) :=
      mul_le_mul_of_nonneg_right hNn hc.le
    have h2 := abs_nonneg (t - (StepperMotor.angleOpenloopRepeat u clock t n m).shaft_angle)
    linarith

/-- C21: one `angleOpenloop` step never moves away from the target nor past it: the
new tracked angle `a'` satisfies `|t - a'| ≤ |t - a|`; if `|t - a| > |velocity_limit*Ts|`
then `|t - a'| = |t - a| - |velocity_limit|*Ts` and `t - a'` has the sign of `t - a`,
otherwise `a' = t`.  With `velocity_limit ≠ 0` (the step `Ts` is at least one
microsecond), repeated steps reach the target exactly after finitely many calls. -/
theorem angleOpenloop_converges [FloorRing α] (u : FocUtils α) (m : StepperMotor α)
    (now_us : ℕ) (t : α) :
    |t - (m.angleOpenloop u now_us t).shaft_angle| ≤ |t - m.shaft_angle| ∧
    (|t - m.shaft_angle| > |m.velocity_limit * sampleTime now_us m.open_loop_timestamp| →
      |t - (m.angleOpenloop u now_us t).shaft_angle|
          = |t - m.shaft_angle| - |m.velocity_limit| * sampleTime now_us m.open_loop_timestamp ∧
      _sign (t - (m.angleOpenloop u now_us t).shaft_angle) = _sign (t - m.shaft_angle) ∧
      _sign (t - m.shaft_angle) ≠ 0) ∧
    (¬ |t - m.shaft_angle| > |m.velocity_limit * sampleTime now_us m.open_loop_timestamp| →
      (m.angleOpenloop u now_us t).shaft_angle = t) ∧
    (m.velocity_limit ≠ 0 → ∀ clock : ℕ → ℕ, ∃ N : ℕ, ∀ n, N ≤ n →
      (StepperMotor.angleOpenloopRepeat u clock t n m).shaft_angle = t) := by
  have hst := angleOpenloop_step u m now_us t
  refine ⟨?_, hst.1, hst.2, fun hv clock => angleOpenloopRepeat_reaches u clock t m hv⟩
  by_cases hadv : |t - m.shaft_angle|
      > |m.velocity_limit * sampleTime now_us m.open_loop_timestamp|
  · rw [(hst.1 hadv).1]
    have : 0 ≤ |m.velocity_limit| * sampleTime now_us m.open_loop_timestamp :=
      mul_nonneg (abs_nonneg _) (sampleTime_pos _ _).le
    linarith
  · rw [hst.2 hadv, sub_self, abs_zero]
    exact abs_nonneg _

/-- Witness of `angleOpenloop_converges`: from angle `0` with `velocity_limit = 20`
and `Ts = 1 ms`, the target `1` is further than one step; the distance shrinks by
`20 * 0.001`, and repeated steps on the half-second clock reach the target. -/
theorem angleOpenloop_converges_witness :
    |(1 : ℚ) - defaultMotor.shaft_angle|
        > |defaultMotor.velocity_limit * sampleTime 1000 defaultMotor.open_loop_timestamp| ∧
    defaultMotor.velocity_limit ≠ 0 ∧
    |(1 : ℚ) - (defaultMotor.angleOpenloop utilsQ 1000 1).shaft_angle|
        = |(1 : ℚ) - defaultMotor.shaft_angle|
            - |defaultMotor.velocity_limit| * sampleTime 1000 defaultMotor.open_loop_timestamp ∧
    ∃ N : ℕ, ∀ n, N ≤ n →
      (StepperMotor.angleOpenloopRepeat utilsQ halfSecondClock 1 n defaultMotor).shaft_angle = 1 :=
  have hadv : |(1 : ℚ) - defaultMotor.shaft_angle|
      > |defaultMotor.velocity_limit * sampleTime 1000 defaultMotor.open_loop_timestamp| := by
    norm_num [defaultMotor, sampleTime, abs_of_pos]
  have hv : defaultMotor.velocity_limit ≠ 0 := by norm_num [defaultMotor]
  have h := angleOpenloop_converges utilsQ defaultMotor 1000 1
  ⟨hadv, hv, (h.2.1 hadv).1, h.2.2.2 hv halfSecondClock⟩

end Convergence

end FOC
